import Mathlib

set_option autoImplicit false

namespace Rezi

/-- Result code `ZR_OK` of the native ABI (`src/packages/native/src/lib.rs`). -/
def ZR_OK : Int := 0

/-- Result code `ZR_ERR_INVALID_ARGUMENT` of the native ABI. -/
def ZR_ERR_INVALID_ARGUMENT : Int := -1

/-- Result code `ZR_ERR_LIMIT` of the native ABI. -/
def ZR_ERR_LIMIT : Int := -3

/-- Result code `ZR_ERR_PLATFORM` of the native ABI. -/
def ZR_ERR_PLATFORM : Int := -6

/-- A cell style: foreground RGB, background RGB, attribute bitmask (`zr_style_t`). -/
structure Style where
  fg : Nat
  bg : Nat
  attrs : Nat
deriving Repr, DecidableEq

/-- The all-zero style. -/
def plainStyle : Style := ⟨0, 0, 0⟩

/-- One framebuffer cell: glyph bytes, display width (0, 1 or 2), style (`zr_cell_t`). -/
structure Cell where
  glyph : List Nat
  width : Nat
  style : Style
deriving Repr, DecidableEq

/-- A blank width-1 cell: a single space glyph. -/
def blankCell (st : Style) : Cell := ⟨[32], 1, st⟩

/-- Row-major cell grid of fixed extent (`zr_fb_t`). -/
structure Fb where
  cols : Nat
  rows : Nat
  cells : List Cell
deriving Repr, DecidableEq

/-- `zr_fb_init` followed by `zr_fb_clear`: a grid of blank cells of the given style. -/
def Fb.init (cols rows : Nat) (st : Style) : Fb :=
  ⟨cols, rows, List.replicate (cols * rows) (blankCell st)⟩

/-- Bounds-checked cell read at integer coordinates. -/
def Fb.cellAt (fb : Fb) (x y : Int) : Option Cell :=
  if 0 ≤ x ∧ x < (fb.cols : Int) ∧ 0 ≤ y ∧ y < (fb.rows : Int) then
    fb.cells[y.toNat * fb.cols + x.toNat]?
  else none

/-- Bounds-checked cell write; writes outside the extent leave the grid unchanged. -/
def Fb.setCell (fb : Fb) (x y : Int) (c : Cell) : Fb :=
  if 0 ≤ x ∧ x < (fb.cols : Int) ∧ 0 ≤ y ∧ y < (fb.rows : Int) then
    ⟨fb.cols, fb.rows, fb.cells.set (y.toNat * fb.cols + x.toNat) c⟩
  else fb

/-- Width of the cell at `(x, y)`, or `none` out of bounds. -/
def Fb.widthAt (fb : Fb) (x y : Int) : Option Nat :=
  (fb.cellAt x y).map Cell.width

/-- Replace the cell at `(x, y)` with a blank width-1 cell keeping its style. -/
def Fb.blankOut (fb : Fb) (x y : Int) : Fb :=
  match fb.cellAt x y with
  | none => fb
  | some c => fb.setCell x y (blankCell c.style)

/-- A clip rectangle in framebuffer coordinates (`zr_rect_t`). -/
structure Rect where
  x : Int
  y : Int
  w : Int
  h : Int
deriving Repr, DecidableEq

/-- Point membership in a rectangle. -/
def Rect.holds (r : Rect) (px py : Int) : Bool :=
  decide (r.x ≤ px ∧ px < r.x + r.w ∧ r.y ≤ py ∧ py < r.y + r.h)

/-- Rectangle intersection, clamping empty overlaps to zero extent. -/
def Rect.inter (a b : Rect) : Rect :=
  ⟨max a.x b.x, max a.y b.y,
   max 0 (min (a.x + a.w) (b.x + b.w) - max a.x b.x),
   max 0 (min (a.y + a.h) (b.y + b.h) - max a.y b.y)⟩

/-- Transient clip painter over one framebuffer (`zr_fb_painter_t`); the head of
`clipStack` is the top of the stack. -/
structure Painter where
  fb : Fb
  clipStack : List Rect
  clipCap : Nat
deriving Repr, DecidableEq

/-- Modelled from the spec: `zr_fb_painter_begin` (native C, not part of this
package) seeds the clip stack with the full-frame rect. -/
def painterBegin (fb : Fb) (cap : Nat) : Painter :=
  ⟨fb, [⟨0, 0, (fb.cols : Int), (fb.rows : Int)⟩], cap⟩

/-- Modelled from the spec: `zr_fb_clip_push` (native C, not part of this
package) intersects with the current top and fails `LimitExceeded` past the
stack capacity. -/
def clipPush (p : Painter) (r : Rect) : Painter × Int :=
  if p.clipCap ≤ p.clipStack.length then (p, ZR_ERR_LIMIT)
  else
    match p.clipStack with
    | [] => (p, ZR_ERR_INVALID_ARGUMENT)
    | top :: rest => ({ p with clipStack := Rect.inter top r :: top :: rest }, ZR_OK)

/-- Modelled from the spec: `zr_fb_clip_pop` (native C, not part of this
package) removes the top entry and fails if that would remove the base. -/
def clipPop (p : Painter) : Painter × Int :=
  match p.clipStack with
  | [] => (p, ZR_ERR_INVALID_ARGUMENT)
  | [_] => (p, ZR_ERR_INVALID_ARGUMENT)
  | _ :: rest => ({ p with clipStack := rest }, ZR_OK)

/-- Modelled from the spec (§4.2 step 2): before a write at `(x, y)`, if that
position is the continuation of a wide lead at `(x-1, y)`, the lead is
normalized to a blank width-1 cell — a lead must never survive with its
continuation overwritten. -/
def pgNormalizeLead (fb : Fb) (x y : Int) : Fb :=
  if fb.widthAt (x - 1) y = some 2 then fb.blankOut (x - 1) y else fb

/-- Modelled from the spec (§4.2 step 4 and invariant §3): overwriting a wide
lead at `(x, y)` blanks its paired width-0 continuation at `(x+1, y)`; the
repair ignores clip placement. -/
def pgRepairCont (fb : Fb) (x y : Int) : Fb :=
  if fb.widthAt x y = some 2 ∧ fb.widthAt (x + 1) y = some 0 then
    fb.blankOut (x + 1) y
  else fb

/-- Modelled from the spec (§4.2 step 4): a width-2 write attempts the paired
continuation at `(x+1, y)` through the same clip check; when that position is
clipped away, a pre-existing continuation there is cleared to blank instead
of being left orphaned. -/
def pgWriteCont (fb : Fb) (top : Rect) (x y : Int) (width : Nat) (st : Style) : Fb :=
  if width = 2 then
    if top.holds (x + 1) y then fb.setCell (x + 1) y ⟨[], 0, st⟩
    else if fb.widthAt (x + 1) y = some 0 then fb.blankOut (x + 1) y
    else fb
  else fb

/-- Modelled from the spec: the core of `zr_fb_put_grapheme` (native C, not part
of this package) writing under a given top-of-stack clip rect, spec §4.2:
outside the clip rect the write is a silent no-op; otherwise the two pair
repairs run, the glyph, width and style are written at `(x, y)`, and a width-2
write places its continuation. -/
def putGraphemeIn (fb : Fb) (top : Rect) (x y : Int) (bytes : List Nat)
    (width : Nat) (st : Style) : Fb :=
  if top.holds x y = false then fb
  else
    pgWriteCont
      ((pgRepairCont (pgNormalizeLead fb x y) x y).setCell x y ⟨bytes, width, st⟩)
      top x y width st

/-- Modelled from the spec: `zr_fb_put_grapheme` (native C, not part of this
package) dispatched through the painter's top-of-stack clip rect. -/
def putGrapheme (p : Painter) (x y : Int) (bytes : List Nat) (width : Nat)
    (st : Style) : Painter × Int :=
  match p.clipStack with
  | [] => (p, ZR_ERR_INVALID_ARGUMENT)
  | top :: _ => ({ p with fb := putGraphemeIn p.fb top x y bytes width st }, ZR_OK)

/-- SGR attribute bit for bold (`1 << 0`, the test constant `ATTR_BOLD`). -/
def ATTR_BOLD : Nat := 1

/-- SGR attribute bit for underline (`1 << 2`, the test constant `ATTR_UNDERLINE`). -/
def ATTR_UNDERLINE : Nat := 4

/-- SGR attribute bit for dim (`1 << 4`, the test constant `ATTR_DIM`). -/
def ATTR_DIM : Nat := 16

/-- The mutually exclusive intensity class of spec §4.3 step 5. -/
inductive Intensity where
  | normal
  | bold
  | dim
deriving Repr, DecidableEq

/-- Modelled from the spec: bold and dim belong to one mutually exclusive
intensity class; a style's class is read from its attribute bits, bold first. -/
def intensityOf (attrs : Nat) : Intensity :=
  if attrs &&& ATTR_BOLD ≠ 0 then Intensity.bold
  else if attrs &&& ATTR_DIM ≠ 0 then Intensity.dim
  else Intensity.normal

/-- The SGR parameter emitted for a style's intensity class: `1` for bold,
`2` for dim, nothing for normal intensity. -/
def intensityCodes (st : Style) : List Nat :=
  match intensityOf st.attrs with
  | Intensity.bold => [1]
  | Intensity.dim => [2]
  | Intensity.normal => []

/-- The SGR parameter emitted for underline. -/
def underlineCodes (st : Style) : List Nat :=
  if st.attrs &&& ATTR_UNDERLINE ≠ 0 then [4] else []

/-- The 24-bit foreground and background color parameters. -/
def colorCodes (st : Style) : List Nat :=
  [38, 2, st.fg / 65536 % 256, st.fg / 256 % 256, st.fg % 256,
   48, 2, st.bg / 65536 % 256, st.bg / 256 % 256, st.bg % 256]

/-- Modelled from the spec: the full reset-and-rebuild SGR parameter list of
§4.3 step 5 — the reset code `0` followed by the complete set of target
attribute and color codes. -/
def sgrRebuild (st : Style) : List Nat :=
  0 :: (intensityCodes st ++ underlineCodes st ++ colorCodes st)

/-- Modelled from the spec: the style codec of the native diff renderer
(`zr_diff_render`, native C, not part of this package). A style transition is
emitted as a full reset-and-rebuild parameter list, never as an incremental
add or remove of a single attribute; identical styles emit nothing
(§4.3 steps 4–5). -/
def sgrTransition (a b : Style) : List Nat :=
  if a = b then [] else sgrRebuild b

/-- ASCII decimal digits of a number, most significant first. -/
def digitsOf (n : Nat) : List Nat :=
  (Nat.toDigits 10 n).map Char.toNat

/-- Join SGR parameters with `;` (byte 59). -/
def joinCodes : List Nat → List Nat
  | [] => []
  | [c] => digitsOf c
  | c :: c2 :: rest => digitsOf c ++ 59 :: joinCodes (c2 :: rest)

/-- Render an SGR parameter list as the escape sequence `ESC [ … m`. -/
def renderSgr (codes : List Nat) : List Nat :=
  27 :: 91 :: (joinCodes codes ++ [109])

/-- The CUP escape `ESC [ row ; col H` addressing 0-based cell `(x, y)` with
1-based terminal coordinates. -/
def cupSeq (x y : Nat) : List Nat :=
  27 :: 91 :: (digitsOf (y + 1) ++ 59 :: (digitsOf (x + 1) ++ [72]))

/-- Byte values of a string's characters. -/
def strBytes (s : String) : List Nat := s.data.map Char.toNat

/-- Whether `needle` occurs contiguously inside a byte list. -/
def isSub (needle : List Nat) : List Nat → Bool
  | [] => needle.isEmpty
  | a :: t => needle.isPrefixOf (a :: t) || isSub needle t

/-- The suffix strictly after the first occurrence of `pat`, if any. -/
def afterFirst (pat : List Nat) : List Nat → Option (List Nat)
  | [] => if pat.isEmpty then some [] else none
  | a :: t =>
    if pat.isPrefixOf (a :: t) then some ((a :: t).drop pat.length)
    else afterFirst pat t

/-- Whether byte `b` occurs after the first occurrence of `pat` in `out`. -/
def seqThenByte (out pat : List Nat) (b : Nat) : Bool :=
  match afterFirst pat out with
  | none => false
  | some rest => rest.contains b

/-- A glyph is plain ASCII when it is at most one byte long. -/
def Cell.isAscii (c : Cell) : Bool := decide (c.glyph.length ≤ 1)

/-- Output-side terminal state tracked during emission: whether the real cursor
position is known, the tracked cursor cell, and the running active output
style (spec §4.3 steps 4 and 6). -/
structure EmitState where
  cursorKnown : Bool
  curX : Nat
  curY : Nat
  activeStyle : Style
deriving Repr, DecidableEq

/-- Modelled from the spec: emission of one damaged cell by the native diff
renderer (§4.3 steps 4–6): an absolute cursor-position sequence only when the
tracked cursor is not already at the cell, a style sequence only when the
style differs from the running active output style, and after a non-ASCII
(multi-byte) glyph the implicit advance is not trusted, so the cursor becomes
unknown and the next write is preceded by an explicit CUP. -/
def emitCell (es : EmitState) (x y : Nat) (c : Cell) : EmitState × List Nat :=
  let cup :=
    if es.cursorKnown = true ∧ es.curX = x ∧ es.curY = y then []
    else cupSeq x y
  let sty :=
    if es.activeStyle = c.style then []
    else renderSgr (sgrTransition es.activeStyle c.style)
  (⟨c.isAscii, x + c.width, y, c.style⟩, cup ++ (sty ++ c.glyph))

/-- Emit a run of consecutive damaged cells starting at column `x` of row `y`. -/
def emitRun (es : EmitState) (y x : Nat) : List Cell → EmitState × List Nat
  | [] => (es, [])
  | c :: rest =>
    let r1 := emitCell es x y c
    let r2 := emitRun r1.1 y (x + 1) rest
    (r2.1, r1.2 ++ r2.2)

/-- Columns of row `y` whose cells differ between the two framebuffers. -/
def changedCols (prev next : Fb) (y : Nat) : List Nat :=
  (List.range prev.cols).filter
    (fun x => decide (prev.cellAt (x : Int) (y : Int) ≠ next.cellAt (x : Int) (y : Int)))

/-- Group an ascending column list into contiguous inclusive runs, extending
the open run `(s, e)`. -/
def runsAux (s e : Nat) : List Nat → List (Nat × Nat)
  | [] => [(s, e)]
  | x :: rest => if x = e + 1 then runsAux s x rest else (s, e) :: runsAux x x rest

/-- Contiguous inclusive runs of an ascending column list. -/
def runsOf : List Nat → List (Nat × Nat)
  | [] => []
  | x :: rest => runsAux x x rest

/-- One full-frame damage rect per row. -/
def fullFrameRects (next : Fb) : List (Nat × Nat × Nat) :=
  (List.range next.rows).map (fun y => (y, 0, next.cols - 1))

/-- Modelled from the spec: damage detection of the native diff renderer
(§4.3 step 1): per row, contiguous changed-column runs as `(row, x0, x1)`
rects; differing extents or a rect count past the cap collapse to a single
full-frame damage region with `damage_full_frame` set. -/
def damageOf (prev next : Fb) (cap : Nat) : List (Nat × Nat × Nat) × Bool :=
  if prev.cols = next.cols ∧ prev.rows = next.rows then
    let rects :=
      ((List.range prev.rows).map
        (fun y => (runsOf (changedCols prev next y)).map (fun r => (y, r.1, r.2)))).flatten
    if cap < rects.length then (fullFrameRects next, true) else (rects, false)
  else (fullFrameRects next, true)

/-- Emit every damaged run against the `next` framebuffer. -/
def emitDamage (es : EmitState) (next : Fb) : List (Nat × Nat × Nat) → EmitState × List Nat
  | [] => (es, [])
  | r :: rest =>
    let cells := (List.range (r.2.2 + 1 - r.2.1)).map
      (fun i => (next.cellAt ((r.2.1 + i : Nat) : Int) (r.1 : Int)).getD (blankCell plainStyle))
    let r1 := emitRun es r.1 r.2.1 cells
    let r2 := emitDamage r1.1 next rest
    (r2.1, r1.2 ++ r2.2)

/-- Modelled from the spec: `zr_diff_render` (native C, not part of this
package), §4.3: damage detection, then per-run emission threading the tracked
cursor and running active output style. Returns the damage rects, the
full-frame flag and the emitted byte stream. The scroll optimization and the
final cursor reconciliation of steps 2 and 7 are omitted: the claims settled
here disable or do not reach them, and neither emits cell content. -/
def diffRender (prev next : Fb) (cap : Nat) (es0 : EmitState) :
    List (Nat × Nat × Nat) × Bool × List Nat :=
  let d := damageOf prev next cap
  (d.1, d.2, (emitDamage es0 next d.1).2)

/-- One registered engine handle (`EngineSlot` in `lib.rs`): owning thread id,
in-flight call counter, destroyed flag. The opaque `*mut zr_engine_t` lives
outside the wrapper and is not part of the registry state. -/
structure EngineSlot where
  ownerThread : Nat
  activeCalls : Nat
  destroyed : Bool
deriving Repr, DecidableEq

/-- The process-wide id-to-handle registry (`REGISTRY` in `lib.rs`), as an
association list looked up front to back. -/
abbrev Reg := List (Nat × EngineSlot)

/-- Registry lookup (`map.get(&engine_id)`): first entry with the given id. -/
def regFind : Reg → Nat → Option EngineSlot
  | [], _ => none
  | (k, s) :: rest, id => if k = id then some s else regFind rest id

/-- Rewrite the slot stored under `id` in place. -/
def regAdjust (reg : Reg) (id : Nat) (f : EngineSlot → EngineSlot) : Reg :=
  reg.map (fun kv => if kv.1 = id then (kv.1, f kv.2) else kv)

/-- Registry removal (`map.remove(&engine_id)`). -/
def regRemove (reg : Reg) (id : Nat) : Reg :=
  reg.filter (fun kv => kv.1 != id)

/-- Observable events on a slot's active-call counter: the increment taken by
`get_engine_guard`, the decrement of `EngineGuard::drop`, and the condition
variable notification it issues when the counter reaches zero. -/
inductive CEvent where
  | incr (id : Nat)
  | decr (id : Nat)
  | wake (id : Nat)
deriving Repr, DecidableEq

/-- `get_engine_guard` (`lib.rs`): id 0 and unregistered ids fail, reported by
the callers as `ZR_ERR_INVALID_ARGUMENT`; otherwise the slot's active-call
counter is incremented under the registry lock and a guard over the slot is
returned. -/
def getEngineGuard (reg : Reg) (id : Nat) : Option EngineSlot × Reg × List CEvent :=
  if id = 0 then (none, reg, [])
  else
    match regFind reg id with
    | none => (none, reg, [])
    | some slot =>
      (some slot,
       regAdjust reg id (fun s => { s with activeCalls := s.activeCalls + 1 }),
       [CEvent.incr id])

/-- `EngineGuard::drop` (`lib.rs`): decrement the active-call counter; when the
previous value was 1 (the counter reached zero) notify the destroy waiter. -/
def guardDrop (reg : Reg) (id : Nat) : Reg × List CEvent :=
  let prev := ((regFind reg id).map EngineSlot.activeCalls).getD 0
  (regAdjust reg id (fun s => { s with activeCalls := s.activeCalls - 1 }),
   if prev = 1 then [CEvent.decr id, CEvent.wake id] else [CEvent.decr id])

/-- The counter events produced by dropping the guard taken on `slot`: always
one decrement, plus the wake notification when the counter returns to zero. -/
def dropEvents (id : Nat) (slot : EngineSlot) : List CEvent :=
  if slot.activeCalls = 0 then [CEvent.decr id, CEvent.wake id] else [CEvent.decr id]

/-- A one-handle registry: id 3 owned by thread 1, no in-flight calls. -/
def regOne : Reg := [(3, ⟨1, 0, false⟩)]


/-- Outcome of one wrapper call: its result, the registry after the call, the
counter events in order, and whether the underlying native engine call ran. -/
structure CallOut (α : Type) where
  result : α
  reg : Reg
  events : List CEvent
  ffiCalled : Bool
deriving Repr

/-- The call scope shared by every wrapper in `lib.rs`: acquire the guard
(incrementing the counter), run the body on the slot snapshot, and drop the
guard on every exit path (Rust `Drop` runs on each `return`). The body yields
the call result and whether it reached the native engine call. -/
def runGuarded {α : Type} (reg : Reg) (id : Nat) (onErr : α)
    (body : EngineSlot → α × Bool) : CallOut α :=
  match getEngineGuard reg id with
  | (none, reg1, ev1) => ⟨onErr, reg1, ev1, false⟩
  | (some slot, reg1, ev1) =>
    let r := body slot
    let d := guardDrop reg1 id
    ⟨r.1, d.1, ev1 ++ d.2, r.2⟩

/-- `i32::MAX`. -/
def I32_MAX : Nat := 2147483647

/-- The call-accounting contract of a wrapper call on handle `id`: the
registry's counters return to their starting values, increments and
decrements balance, and a call that successfully looks up the handle
increments exactly once, decrements exactly once on its exit path, and wakes
the destroy waiter when the counter returns to zero. -/
def CallBalanced {α : Type} (reg : Reg) (id : Nat) (out : CallOut α) : Prop :=
  out.reg = reg ∧
  out.events.count (CEvent.incr id) = out.events.count (CEvent.decr id) ∧
  (∀ slot : EngineSlot, id ≠ 0 → regFind reg id = some slot →
    out.events.count (CEvent.incr id) = 1 ∧
    out.events.count (CEvent.decr id) = 1 ∧
    (slot.activeCalls = 0 → CEvent.wake id ∈ out.events))

/-- `engineSubmitDrawlist` (`lib.rs`): guard, owner-thread check, drawlist
length check, then `ffi::engine_submit_drawlist` (its return code is the
`ffiRc` parameter). -/
def engineSubmitDrawlist (reg : Reg) (id caller : Nat) (len : Nat) (ffiRc : Int) :
    CallOut Int :=
  runGuarded reg id ZR_ERR_INVALID_ARGUMENT (fun slot =>
    if slot.ownerThread ≠ caller then (ZR_ERR_INVALID_ARGUMENT, false)
    else if I32_MAX < len then (ZR_ERR_LIMIT, false)
    else (ffiRc, true))

/-- `enginePresent` (`lib.rs`): guard, owner-thread check, then
`ffi::engine_present`. -/
def enginePresent (reg : Reg) (id caller : Nat) (ffiRc : Int) : CallOut Int :=
  runGuarded reg id ZR_ERR_INVALID_ARGUMENT (fun slot =>
    if slot.ownerThread ≠ caller then (ZR_ERR_INVALID_ARGUMENT, false)
    else (ffiRc, true))

/-- `enginePollEvents` (`lib.rs`): guard, owner-thread check, negative-timeout
rejection, buffer length check, then `ffi::engine_poll_events`. -/
def enginePollEvents (reg : Reg) (id caller : Nat) (timeoutMs : Int) (outLen : Nat)
    (ffiRc : Int) : CallOut Int :=
  runGuarded reg id ZR_ERR_INVALID_ARGUMENT (fun slot =>
    if slot.ownerThread ≠ caller then (ZR_ERR_INVALID_ARGUMENT, false)
    else if timeoutMs < 0 then (ZR_ERR_INVALID_ARGUMENT, false)
    else if I32_MAX < outLen then (ZR_ERR_LIMIT, false)
    else (ffiRc, true))

/-- `enginePostUserEvent` (`lib.rs`): the designated cross-thread wake-up call;
guard and payload length check, but no owner-thread check, then
`ffi::engine_post_user_event`. -/
def enginePostUserEvent (reg : Reg) (id : Nat) (payloadLen : Nat) (ffiRc : Int) :
    CallOut Int :=
  runGuarded reg id ZR_ERR_INVALID_ARGUMENT (fun _slot =>
    if I32_MAX < payloadLen then (ZR_ERR_LIMIT, false)
    else (ffiRc, true))

/-- Errors a wrapper can raise through the host binding layer instead of
returning a result code. -/
inductive NapiErr where
  | invalidArg
  | genericFailure
deriving Repr, DecidableEq

/-- `engineGetMetrics` (`lib.rs`): guard and owner-thread check fail with an
`InvalidArg` exception; a failing `ffi::engine_get_metrics` becomes
`GenericFailure`. -/
def engineGetMetrics (reg : Reg) (id caller : Nat) (ffiRc : Int) :
    CallOut (Except NapiErr Unit) :=
  runGuarded reg id (Except.error NapiErr.invalidArg) (fun slot =>
    if slot.ownerThread ≠ caller then (Except.error NapiErr.invalidArg, false)
    else if ffiRc ≠ ZR_OK then (Except.error NapiErr.genericFailure, true)
    else (Except.ok (), true))

/-- `engineGetCaps` (`lib.rs`): same shape as `engineGetMetrics` over
`ffi::engine_get_caps`. -/
def engineGetCaps (reg : Reg) (id caller : Nat) (ffiRc : Int) :
    CallOut (Except NapiErr Unit) :=
  runGuarded reg id (Except.error NapiErr.invalidArg) (fun slot =>
    if slot.ownerThread ≠ caller then (Except.error NapiErr.invalidArg, false)
    else if ffiRc ≠ ZR_OK then (Except.error NapiErr.genericFailure, true)
    else (Except.ok (), true))

/-- A JavaScript value as seen by the binding's config parsers. -/
inductive JVal where
  | undef
  | jnull
  | num (n : Int)
  | jbool (b : Bool)
  | jstr (s : String)
  | obj (fields : List (String × JVal))
deriving Repr

/-- The property list of a configuration object, in enumeration order. -/
abbrev JFields := List (String × JVal)

/-- First property of the given name. -/
def getField : JFields → String → Option JVal
  | [], _ => none
  | (k, v) :: rest, name => if k = name then some v else getField rest name

/-- Whether key `k` matches a `(primary, alias)` pair of an allowed-key table. -/
def isKnownKey (allowed : List (String × String)) (k : String) : Bool :=
  allowed.any (fun pa => k == pa.1 || k == pa.2)

/-- Errors raised by the strict config parsers, mirroring the
`napi::Error::new(Status::InvalidArg, …)` messages of `lib.rs`. -/
inductive CfgError where
  | unknownKey (ctx : String) (key : String)
  | notObject (ctx : String)
  | invalidValue (ctx : String)
deriving Repr, DecidableEq

/-- `validate_known_keys` (`lib.rs`): scan the object's property names in
order; the first name outside the allowed set fails `InvalidArg` with a
message naming that key. -/
def validateKnownKeys (fields : JFields) (allowed : List (String × String))
    (ctx : String) : Except CfgError Unit :=
  match fields with
  | [] => Except.ok ()
  | (k, _) :: rest =>
    if isKnownKey allowed k then validateKnownKeys rest allowed ctx
    else Except.error (CfgError.unknownKey ctx k)

/-- `LIMITS_KEYS` (`lib.rs`). -/
def LIMITS_KEYS : List (String × String) :=
  [("arenaMaxTotalBytes", "arena_max_total_bytes"),
   ("arenaInitialBytes", "arena_initial_bytes"),
   ("outMaxBytesPerFrame", "out_max_bytes_per_frame"),
   ("dlMaxTotalBytes", "dl_max_total_bytes"),
   ("dlMaxCmds", "dl_max_cmds"),
   ("dlMaxStrings", "dl_max_strings"),
   ("dlMaxBlobs", "dl_max_blobs"),
   ("dlMaxClipDepth", "dl_max_clip_depth"),
   ("dlMaxTextRunSegments", "dl_max_text_run_segments"),
   ("diffMaxDamageRects", "diff_max_damage_rects")]

/-- `PLAT_KEYS` (`lib.rs`). -/
def PLAT_KEYS : List (String × String) :=
  [("requestedColorMode", "requested_color_mode"),
   ("enableMouse", "enable_mouse"),
   ("enableBracketedPaste", "enable_bracketed_paste"),
   ("enableFocusEvents", "enable_focus_events"),
   ("enableOsc52", "enable_osc52")]

/-- `CREATE_CFG_KEYS` (`lib.rs`). -/
def CREATE_CFG_KEYS : List (String × String) :=
  [("requestedEngineAbiMajor", "requested_engine_abi_major"),
   ("requestedEngineAbiMinor", "requested_engine_abi_minor"),
   ("requestedEngineAbiPatch", "requested_engine_abi_patch"),
   ("requestedDrawlistVersion", "requested_drawlist_version"),
   ("requestedEventBatchVersion", "requested_event_batch_version"),
   ("limits", "limits"),
   ("plat", "plat"),
   ("tabWidth", "tab_width"),
   ("widthPolicy", "width_policy"),
   ("targetFps", "target_fps"),
   ("enableScrollOptimizations", "enable_scroll_optimizations"),
   ("enableDebugOverlay", "enable_debug_overlay"),
   ("enableReplayRecording", "enable_replay_recording"),
   ("waitForOutputDrain", "wait_for_output_drain")]

/-- `RUNTIME_CFG_KEYS` (`lib.rs`). -/
def RUNTIME_CFG_KEYS : List (String × String) :=
  [("limits", "limits"),
   ("plat", "plat"),
   ("tabWidth", "tab_width"),
   ("widthPolicy", "width_policy"),
   ("targetFps", "target_fps"),
   ("enableScrollOptimizations", "enable_scroll_optimizations"),
   ("enableDebugOverlay", "enable_debug_overlay"),
   ("enableReplayRecording", "enable_replay_recording"),
   ("waitForOutputDrain", "wait_for_output_drain")]

/-- One probe of `js_obj` (`lib.rs`) on a present value: `undefined` is
skipped, `null` cannot coerce to an object, an object passes through, and any
other primitive coerces to a wrapper object with no own enumerable keys. -/
def jsObjTry : Option JVal → Option (Except Unit JFields)
  | none => none
  | some JVal.undef => none
  | some JVal.jnull => some (Except.error ())
  | some (JVal.obj fs) => some (Except.ok fs)
  | some _ => some (Except.ok [])

/-- `js_obj` (`lib.rs`): try the primary name, then the alias. -/
def jsObjField (fields : JFields) (primary alt : String) :
    Except Unit (Option JFields) :=
  match jsObjTry (getField fields primary) with
  | some (Except.ok fs) => Except.ok (some fs)
  | some (Except.error _) => Except.error ()
  | none =>
    match jsObjTry (getField fields alt) with
    | some (Except.ok fs) => Except.ok (some fs)
    | some (Except.error _) => Except.error ()
    | none => Except.ok none

/-- Validate an optional nested object against an allowed-key table. -/
def validateNested (o : Option JFields) (allowed : List (String × String))
    (ctx : String) : Except CfgError Unit :=
  match o with
  | none => Except.ok ()
  | some fs => validateKnownKeys fs allowed ctx

/-- `apply_create_cfg_strict` (`lib.rs`): validate the top-level keys, the
nested `limits` and `plat` objects, then run the value parser
`apply_create_cfg` (passed in as `applyVals`); each failing step returns its
error at once, like the Rust `?` operator. -/
def applyCreateCfgStrict (applyVals : JFields → Except CfgError Unit)
    (fields : JFields) : Except CfgError Unit :=
  match validateKnownKeys fields CREATE_CFG_KEYS "engineCreate config" with
  | Except.error e => Except.error e
  | Except.ok _ =>
    match jsObjField fields "limits" "limits" with
    | Except.error _ =>
      Except.error (CfgError.notObject "engineCreate: limits must be an object")
    | Except.ok olim =>
      match validateNested olim LIMITS_KEYS "engineCreate config.limits" with
      | Except.error e => Except.error e
      | Except.ok _ =>
        match jsObjField fields "plat" "plat" with
        | Except.error _ =>
          Except.error (CfgError.notObject "engineCreate: plat must be an object")
        | Except.ok oplat =>
          match validateNested oplat PLAT_KEYS "engineCreate config.plat" with
          | Except.error e => Except.error e
          | Except.ok _ => applyVals fields

/-- `apply_runtime_cfg_strict` (`lib.rs`): same shape over the runtime key
tables, with `apply_runtime_cfg` passed in as `applyVals`. -/
def applyRuntimeCfgStrict (applyVals : JFields → Except CfgError Unit)
    (fields : JFields) : Except CfgError Unit :=
  match validateKnownKeys fields RUNTIME_CFG_KEYS "engineSetConfig config" with
  | Except.error e => Except.error e
  | Except.ok _ =>
    match jsObjField fields "limits" "limits" with
    | Except.error _ =>
      Except.error (CfgError.notObject "engineSetConfig: limits must be an object")
    | Except.ok olim =>
      match validateNested olim LIMITS_KEYS "engineSetConfig config.limits" with
      | Except.error e => Except.error e
      | Except.ok _ =>
        match jsObjField fields "plat" "plat" with
        | Except.error _ =>
          Except.error (CfgError.notObject "engineSetConfig: plat must be an object")
        | Except.ok oplat =>
          match validateNested oplat PLAT_KEYS "engineSetConfig config.plat" with
          | Except.error e => Except.error e
          | Except.ok _ => applyVals fields

/-- `engineSetConfig` (`lib.rs`): guard, owner-thread check, missing config
rejected, strict parse, then `ffi::engine_set_config`. A parse failure leaves
the wrapper through the exception path without reaching the native call. -/
def engineSetConfig (reg : Reg) (id caller : Nat)
    (applyVals : JFields → Except CfgError Unit) (cfg : Option JFields)
    (ffiRc : Int) : CallOut (Except CfgError Int) :=
  runGuarded reg id (Except.ok ZR_ERR_INVALID_ARGUMENT) (fun slot =>
    if slot.ownerThread ≠ caller then (Except.ok ZR_ERR_INVALID_ARGUMENT, false)
    else
      match cfg with
      | none => (Except.ok ZR_ERR_INVALID_ARGUMENT, false)
      | some fields =>
        match applyRuntimeCfgStrict applyVals fields with
        | Except.error e => (Except.error e, false)
        | Except.ok _ => (Except.ok ffiRc, true))

/-- `DEBUG_CFG_KEYS` (`lib.rs`). -/
def DEBUG_CFG_KEYS : List (String × String) :=
  [("enabled", "enabled"),
   ("ringCapacity", "ring_capacity"),
   ("minSeverity", "min_severity"),
   ("categoryMask", "category_mask"),
   ("captureRawEvents", "capture_raw_events"),
   ("captureDrawlistBytes", "capture_drawlist_bytes")]

/-- `DEBUG_QUERY_KEYS` (`lib.rs`). -/
def DEBUG_QUERY_KEYS : List (String × String) :=
  [("minRecordId", "min_record_id"),
   ("maxRecordId", "max_record_id"),
   ("minFrameId", "min_frame_id"),
   ("maxFrameId", "max_frame_id"),
   ("categoryMask", "category_mask"),
   ("minSeverity", "min_severity"),
   ("maxRecords", "max_records")]

/-- `engineDebugEnable` (`lib.rs`): guard, owner-thread check, key validation
and value parse of the optional config (the value parser is `applyVals`),
then `ffi::engine_debug_enable`. -/
def engineDebugEnable (reg : Reg) (id caller : Nat)
    (applyVals : JFields → Except CfgError Unit) (cfg : Option JFields)
    (ffiRc : Int) : CallOut (Except CfgError Int) :=
  runGuarded reg id (Except.ok ZR_ERR_INVALID_ARGUMENT) (fun slot =>
    if slot.ownerThread ≠ caller then (Except.ok ZR_ERR_INVALID_ARGUMENT, false)
    else
      match cfg with
      | none => (Except.ok ffiRc, true)
      | some fields =>
        match validateKnownKeys fields DEBUG_CFG_KEYS "engineDebugEnable config" with
        | Except.error e => (Except.error e, false)
        | Except.ok _ =>
          match applyVals fields with
          | Except.error e => (Except.error e, false)
          | Except.ok _ => (Except.ok ffiRc, true))

/-- `engineDebugDisable` (`lib.rs`): guard, owner-thread check, then the
(void) `ffi::engine_debug_disable` and `ZR_OK`. -/
def engineDebugDisable (reg : Reg) (id caller : Nat) : CallOut Int :=
  runGuarded reg id ZR_ERR_INVALID_ARGUMENT (fun slot =>
    if slot.ownerThread ≠ caller then (ZR_ERR_INVALID_ARGUMENT, false)
    else (ZR_OK, true))

/-- `engineDebugQuery` (`lib.rs`): guard, owner-thread check, query key
validation and value parse, the header-buffer alignment check, then
`ffi::engine_debug_query` (failure becomes `GenericFailure`). -/
def engineDebugQuery (reg : Reg) (id caller : Nat)
    (applyVals : JFields → Except CfgError Unit) (query : Option JFields)
    (headersCap : Nat) (misaligned : Bool) (ffiRc : Int) :
    CallOut (Except NapiErr Unit) :=
  runGuarded reg id (Except.error NapiErr.invalidArg) (fun slot =>
    if slot.ownerThread ≠ caller then (Except.error NapiErr.invalidArg, false)
    else
      let parsed :=
        match query with
        | none => Except.ok ()
        | some fields =>
          match validateKnownKeys fields DEBUG_QUERY_KEYS "engineDebugQuery query" with
          | Except.error e => Except.error e
          | Except.ok _ => applyVals fields
      match parsed with
      | Except.error _ => (Except.error NapiErr.invalidArg, false)
      | Except.ok _ =>
        if headersCap ≠ 0 ∧ misaligned = true then (Except.error NapiErr.invalidArg, false)
        else if ffiRc ≠ ZR_OK then (Except.error NapiErr.genericFailure, true)
        else (Except.ok (), true))

/-- `engineDebugGetPayload` (`lib.rs`): guard, owner-thread check, record-id
parse (a negative or oversized BigInt fails `InvalidArg`), then
`ffi::engine_debug_get_payload`, whose failing code is returned as a value. -/
def engineDebugGetPayload (reg : Reg) (id caller : Nat) (recordIdOk : Bool)
    (ffiRc : Int) (outSize : Nat) : CallOut (Except NapiErr Int) :=
  runGuarded reg id (Except.error NapiErr.invalidArg) (fun slot =>
    if slot.ownerThread ≠ caller then (Except.error NapiErr.invalidArg, false)
    else if recordIdOk = false then (Except.error NapiErr.invalidArg, false)
    else if ffiRc ≠ ZR_OK then (Except.ok ffiRc, true)
    else (Except.ok (outSize : Int), true))

/-- `engineDebugGetStats` (`lib.rs`): guard, owner-thread check, then
`ffi::engine_debug_get_stats` (failure becomes `GenericFailure`). -/
def engineDebugGetStats (reg : Reg) (id caller : Nat) (ffiRc : Int) :
    CallOut (Except NapiErr Unit) :=
  runGuarded reg id (Except.error NapiErr.invalidArg) (fun slot =>
    if slot.ownerThread ≠ caller then (Except.error NapiErr.invalidArg, false)
    else if ffiRc ≠ ZR_OK then (Except.error NapiErr.genericFailure, true)
    else (Except.ok (), true))

/-- `engineDebugExport` (`lib.rs`): guard, owner-thread check, then
`ffi::engine_debug_export`, whose i32 result is returned directly. -/
def engineDebugExport (reg : Reg) (id caller : Nat) (ffiRc : Int) : CallOut Int :=
  runGuarded reg id ZR_ERR_INVALID_ARGUMENT (fun slot =>
    if slot.ownerThread ≠ caller then (ZR_ERR_INVALID_ARGUMENT, false)
    else (ffiRc, true))

/-- `engineDebugReset` (`lib.rs`): guard, owner-thread check, then the (void)
`ffi::engine_debug_reset` and `ZR_OK`. -/
def engineDebugReset (reg : Reg) (id caller : Nat) : CallOut Int :=
  runGuarded reg id ZR_ERR_INVALID_ARGUMENT (fun slot =>
    if slot.ownerThread ≠ caller then (ZR_ERR_INVALID_ARGUMENT, false)
    else (ZR_OK, true))

/-- `u32::MAX`. -/
def U32_MAX : Nat := 4294967295

/-- `alloc_engine_id` (`lib.rs`), the compare-exchange loop sequentialized over
the `NEXT_ENGINE_ID` counter value `c`: a zero counter means the id space was
exhausted and fails `ZR_ERR_LIMIT`; at `u32::MAX` the final id is handed out
and the counter parks at 0; otherwise the current value is handed out and the
counter advances. Returns the result and the new counter. -/
def allocEngineId (c : Nat) : Except Int Nat × Nat :=
  if c = 0 then (Except.error ZR_ERR_LIMIT, 0)
  else if c = U32_MAX then (Except.ok c, 0)
  else (Except.ok c, c + 1)

/-- Outcome of `engineCreate`: the value returned to the host (a parse failure
escapes as an exception, otherwise an i64 carrying the new id or a negative
result code), the id counter, the registry, and which native calls ran. -/
structure CreateOut where
  result : Except CfgError Int
  counter : Nat
  reg : Reg
  ffiCreateCalled : Bool
  ffiDestroyCalled : Bool
deriving Repr

/-- `engineCreate` (`lib.rs`): strict config parse (absent config parses
trivially), `ffi::engine_create` (outcome given by `ffiRc` and `ffiNull`),
id allocation, then registration of a fresh slot owned by the calling thread.
An id-allocation failure destroys the fresh native engine and surfaces the
error code; a parse failure escapes before any native call. -/
def engineCreateOp (applyVals : JFields → Except CfgError Unit)
    (cfg : Option JFields) (ffiRc : Int) (ffiNull : Bool) (c : Nat) (reg : Reg)
    (caller : Nat) : CreateOut :=
  let parse :=
    match cfg with
    | none => Except.ok ()
    | some fields => applyCreateCfgStrict applyVals fields
  match parse with
  | Except.error e => ⟨Except.error e, c, reg, false, false⟩
  | Except.ok _ =>
    if ffiRc ≠ ZR_OK then ⟨Except.ok ffiRc, c, reg, true, false⟩
    else if ffiNull then ⟨Except.ok ZR_ERR_PLATFORM, c, reg, true, false⟩
    else
      match allocEngineId c with
      | (Except.error e, c2) => ⟨Except.ok e, c2, reg, true, true⟩
      | (Except.ok id, c2) =>
        ⟨Except.ok (id : Int), c2, (id, ⟨caller, 0, false⟩) :: reg, true, false⟩

/-- `engineDestroy` (`lib.rs`), the registry phase executed under the registry
lock: id 0, an unregistered id, and a caller that is not the owner thread all
return normally leaving the registry untouched; on the owner thread the slot
is removed. The returned flag says whether the call proceeds to the
drain-and-free phase (modelled by `DStep` below). -/
def engineDestroyRemove (reg : Reg) (id caller : Nat) : Reg × Bool :=
  if id = 0 then (reg, false)
  else
    match regFind reg id with
    | none => (reg, false)
    | some slot =>
      if slot.ownerThread ≠ caller then (reg, false)
      else (regRemove reg id, true)

/-- Abstract state of one handle during destruction, read off the `lib.rs`
concurrency code: whether the handle is still in the registry, the active-call
counter, the `destroyed` flag set by `engineDestroy` after removal, and
whether `ffi::engine_destroy` has freed the native engine. -/
structure DState where
  registered : Bool
  activeCalls : Nat
  destroyedFlag : Bool
  freed : Bool
deriving Repr, DecidableEq

/-- Atomic interleaved steps of the call-draining protocol of `lib.rs`:
`beginCall` is a successful `get_engine_guard` (only possible while the handle
is registered, since lookup and increment share the registry lock with
removal); `endCall` is `EngineGuard::drop`; `destroyRemove` is the registry
phase of `engineDestroy`; `destroyFree` is the `wait_while` waking with a
zero counter followed by `ffi::engine_destroy`, after which `engineDestroy`
returns. -/
inductive DStep : DState → DState → Prop
  | beginCall (s : DState) (h : s.registered = true) :
      DStep s { s with activeCalls := s.activeCalls + 1 }
  | endCall (s : DState) (n : Nat) (h : s.activeCalls = n + 1) :
      DStep s { s with activeCalls := n }
  | destroyRemove (s : DState) (h : s.registered = true) :
      DStep s { s with registered := false, destroyedFlag := true }
  | destroyFree (s : DState) (h : s.destroyedFlag = true)
      (h0 : s.activeCalls = 0) :
      DStep s { s with freed := true }

/-- Reflexive-transitive closure of `DStep`. -/
inductive DReach : DState → DState → Prop
  | refl (s : DState) : DReach s s
  | step {s t u : DState} : DReach s t → DStep t u → DReach s u

/-- The handle state at the moment `engineDestroy` is entered with `n`
in-flight calls. -/
def DInit (n : Nat) : DState := ⟨true, n, false, false⟩

/-- Scenario A of the spec (§8): 4×1 grid, wide glyph at x=1, clip `(2,0,2,1)`
pushed, `"A"` written at x=2. -/
def scenarioA : Fb :=
  let p0 := painterBegin (Fb.init 4 1 plainStyle) 8
  let p1 := (putGrapheme p0 1 0 [87] 2 plainStyle).1
  let p2 := (clipPush p1 ⟨2, 0, 2, 1⟩).1
  ((putGrapheme p2 2 0 [65] 1 plainStyle).1).fb

/-- Scenario B of the spec (§8): 4×1 grid, wide glyph at x=1, clip `(1,0,1,1)`
pushed, `"B"` (width 1) written at x=1. -/
def scenarioB : Fb :=
  let p0 := painterBegin (Fb.init 4 1 plainStyle) 8
  let p1 := (putGrapheme p0 1 0 [87] 2 plainStyle).1
  let p2 := (clipPush p1 ⟨1, 0, 1, 1⟩).1
  ((putGrapheme p2 1 0 [66] 1 plainStyle).1).fb

/-- A 2×1 framebuffer holding a wide-glyph pair at columns 0 and 1, used to
instantiate the general pair-repair statements. -/
def pairFb : Fb :=
  ⟨2, 1, [⟨[87], 2, plainStyle⟩, ⟨[], 0, plainStyle⟩]⟩

/-- The full-frame clip rect of `pairFb`. -/
def pairTop : Rect := ⟨0, 0, 2, 1⟩

/-- Scenario C of the spec (§8), previous frame: a blank 2×1 grid. -/
def diffPrev : Fb := Fb.init 2 1 plainStyle

/-- Scenario C of the spec (§8), next frame: the non-ASCII glyph `█`
(UTF-8 `e2 96 88`) at `(0,0)` and `"A"` at `(1,0)`. -/
def diffNext : Fb :=
  ((Fb.init 2 1 plainStyle).setCell 0 0 ⟨[226, 150, 136], 1, plainStyle⟩).setCell
    1 0 ⟨[65], 1, plainStyle⟩

/-- The initial output-side state used by the diff scenarios: cursor known at
the origin, plain active style. -/
def esInit : EmitState := ⟨true, 0, 0, plainStyle⟩

lemma rowmajor_inj (c a b a2 b2 : Nat) (ha : a < c) (ha2 : a2 < c)
    (h : b * c + a = b2 * c + a2) : a = a2 ∧ b = b2 := by
  have hc : 0 < c := Nat.lt_of_le_of_lt (Nat.zero_le a) ha
  have hmod : a = a2 := by
    have h1 : (c * b + a) % c = a := by
      rw [Nat.mul_add_mod]
      exact Nat.mod_eq_of_lt ha
    have h2 : (c * b2 + a2) % c = a2 := by
      rw [Nat.mul_add_mod]
      exact Nat.mod_eq_of_lt ha2
    have h3 : c * b + a = c * b2 + a2 := by
      rw [Nat.mul_comm c b, Nat.mul_comm c b2]
      exact h
    rw [← h1, h3, h2]
  refine ⟨hmod, ?_⟩
  have hbc : b * c = b2 * c := by omega
  exact Nat.eq_of_mul_eq_mul_right hc hbc

lemma Fb.setCell_of_inb (fb : Fb) {x y : Int} (c : Cell)
    (hin : 0 ≤ x ∧ x < (fb.cols : Int) ∧ 0 ≤ y ∧ y < (fb.rows : Int)) :
    fb.setCell x y c = ⟨fb.cols, fb.rows, fb.cells.set (y.toNat * fb.cols + x.toNat) c⟩ := by
  unfold Fb.setCell
  rw [if_pos hin]

lemma Fb.cellAt_mk (cols rows : Nat) (cells : List Cell) (x y : Int) :
    Fb.cellAt ⟨cols, rows, cells⟩ x y =
      if 0 ≤ x ∧ x < (cols : Int) ∧ 0 ≤ y ∧ y < (rows : Int) then
        cells[y.toNat * cols + x.toNat]?
      else none := rfl

lemma Fb.cellAt_setCell_ne (fb : Fb) {x y x2 y2 : Int} (c : Cell)
    (hne : x ≠ x2 ∨ y ≠ y2) :
    (fb.setCell x y c).cellAt x2 y2 = fb.cellAt x2 y2 := by
  by_cases hin : 0 ≤ x ∧ x < (fb.cols : Int) ∧ 0 ≤ y ∧ y < (fb.rows : Int)
  · rw [Fb.setCell_of_inb fb c hin]
    unfold Fb.cellAt
    dsimp only
    split_ifs with hin2
    · apply List.getElem?_set_ne
      intro hidx
      obtain ⟨hx, hy⟩ := rowmajor_inj fb.cols x.toNat y.toNat x2.toNat y2.toNat
        (by omega) (by omega) hidx
      rcases hne with hne | hne
      · exact hne (by omega)
      · exact hne (by omega)
    · rfl
  · unfold Fb.setCell
    rw [if_neg hin]

lemma Fb.cellAt_setCell_self (fb : Fb) {x y : Int} {c0 : Cell} (c : Cell)
    (h : fb.cellAt x y = some c0) :
    (fb.setCell x y c).cellAt x y = some c := by
  unfold Fb.cellAt at h
  by_cases hin : 0 ≤ x ∧ x < (fb.cols : Int) ∧ 0 ≤ y ∧ y < (fb.rows : Int)
  · rw [if_pos hin] at h
    have hlen : y.toNat * fb.cols + x.toNat < fb.cells.length :=
      (List.getElem?_eq_some_iff.mp h).1
    rw [Fb.setCell_of_inb fb c hin, Fb.cellAt_mk, if_pos hin]
    exact List.getElem?_set_self hlen
  · rw [if_neg hin] at h
    exact absurd h (by simp)

lemma Fb.cellAt_blankOut_ne (fb : Fb) {x y x2 y2 : Int}
    (hne : x ≠ x2 ∨ y ≠ y2) :
    (fb.blankOut x y).cellAt x2 y2 = fb.cellAt x2 y2 := by
  unfold Fb.blankOut
  cases h : fb.cellAt x y with
  | none => rfl
  | some c => exact Fb.cellAt_setCell_ne fb _ hne

lemma Fb.cellAt_blankOut_self (fb : Fb) {x y : Int} {c0 : Cell}
    (h : fb.cellAt x y = some c0) :
    (fb.blankOut x y).cellAt x y = some (blankCell c0.style) := by
  unfold Fb.blankOut
  rw [h]
  exact Fb.cellAt_setCell_self fb _ h

lemma Fb.widthAt_eq_some_iff (fb : Fb) (x y : Int) (w : Nat) :
    fb.widthAt x y = some w ↔ ∃ c, fb.cellAt x y = some c ∧ c.width = w := by
  unfold Fb.widthAt
  cases h : fb.cellAt x y <;> simp

lemma cellAt_pgNormalizeLead_ne (fb : Fb) {x y x2 y2 : Int}
    (hne : x - 1 ≠ x2 ∨ y ≠ y2) :
    (pgNormalizeLead fb x y).cellAt x2 y2 = fb.cellAt x2 y2 := by
  unfold pgNormalizeLead
  split_ifs with h
  · exact Fb.cellAt_blankOut_ne fb hne
  · rfl

lemma cellAt_pgRepairCont_ne (fb : Fb) {x y x2 y2 : Int}
    (hne : x + 1 ≠ x2 ∨ y ≠ y2) :
    (pgRepairCont fb x y).cellAt x2 y2 = fb.cellAt x2 y2 := by
  unfold pgRepairCont
  split_ifs with h
  · exact Fb.cellAt_blankOut_ne fb hne
  · rfl

lemma cellAt_pgWriteCont_ne (fb : Fb) (top : Rect) {x y : Int} {x2 y2 : Int}
    (width : Nat) (st : Style) (hne : x + 1 ≠ x2 ∨ y ≠ y2) :
    (pgWriteCont fb top x y width st).cellAt x2 y2 = fb.cellAt x2 y2 := by
  unfold pgWriteCont
  split_ifs with _ _ _
  · exact Fb.cellAt_setCell_ne fb _ hne
  · exact Fb.cellAt_blankOut_ne fb hne
  · rfl
  · rfl

lemma widthAt_congr_of_cellAt {A B : Fb} {x y : Int}
    (h : A.cellAt x y = B.cellAt x y) : A.widthAt x y = B.widthAt x y := by
  unfold Fb.widthAt
  rw [h]

/-- C1: every write through the clip painter repairs wide-glyph pairs — a write
landing on the continuation half restores the lead at `(x-1, y)` to a blank
width-1 cell, a non-wide write landing on the lead half restores the paired
continuation at `(x+1, y)` to a blank width-1 cell, regardless of clip
boundary placement; in particular the two 4×1 clip-edge scenarios end with
cell `(1,0)` blank and `(2,0)` holding `"A"` (scenario A), and cell `(1,0)`
holding `"B"` and `(2,0)` blank (scenario B). -/
theorem C1_clip_painter_pair_repair :
    (∀ (fb : Fb) (top : Rect) (x y : Int) (bytes : List Nat) (w : Nat) (st : Style),
        top.holds x y = true →
        fb.widthAt (x - 1) y = some 2 →
        (putGraphemeIn fb top x y bytes w st).widthAt (x - 1) y = some 1 ∧
        ((putGraphemeIn fb top x y bytes w st).cellAt (x - 1) y).map Cell.glyph = some [32]) ∧
    (∀ (fb : Fb) (top : Rect) (x y : Int) (bytes : List Nat) (w : Nat) (st : Style),
        top.holds x y = true →
        w ≠ 2 →
        fb.widthAt x y = some 2 →
        fb.widthAt (x + 1) y = some 0 →
        (putGraphemeIn fb top x y bytes w st).widthAt (x + 1) y = some 1 ∧
        ((putGraphemeIn fb top x y bytes w st).cellAt (x + 1) y).map Cell.glyph = some [32]) ∧
    (scenarioA.cellAt 1 0 = some (blankCell plainStyle) ∧
     scenarioA.cellAt 2 0 = some ⟨[65], 1, plainStyle⟩) ∧
    (scenarioB.cellAt 1 0 = some ⟨[66], 1, plainStyle⟩ ∧
     scenarioB.cellAt 2 0 = some (blankCell plainStyle)) := by
  refine ⟨?_, ?_, by decide, by decide⟩
  · intro fb top x y bytes w st htop hlead
    obtain ⟨c0, hc0, -⟩ := (Fb.widthAt_eq_some_iff fb (x - 1) y 2).mp hlead
    have hput : putGraphemeIn fb top x y bytes w st =
        pgWriteCont
          ((pgRepairCont (pgNormalizeLead fb x y) x y).setCell x y ⟨bytes, w, st⟩)
          top x y w st := by
      unfold putGraphemeIn
      rw [if_neg (by simp [htop])]
    have h1 : (pgNormalizeLead fb x y).cellAt (x - 1) y = some (blankCell c0.style) := by
      unfold pgNormalizeLead
      rw [if_pos hlead]
      exact Fb.cellAt_blankOut_self fb hc0
    have h2 : (pgRepairCont (pgNormalizeLead fb x y) x y).cellAt (x - 1) y =
        some (blankCell c0.style) := by
      rw [cellAt_pgRepairCont_ne _ (Or.inl (by omega))]
      exact h1
    have h3 : ((pgRepairCont (pgNormalizeLead fb x y) x y).setCell x y
        ⟨bytes, w, st⟩).cellAt (x - 1) y = some (blankCell c0.style) := by
      rw [Fb.cellAt_setCell_ne _ _ (Or.inl (by omega))]
      exact h2
    have h4 : (putGraphemeIn fb top x y bytes w st).cellAt (x - 1) y =
        some (blankCell c0.style) := by
      rw [hput, cellAt_pgWriteCont_ne _ _ _ _ (Or.inl (by omega))]
      exact h3
    constructor
    · unfold Fb.widthAt
      rw [h4]
      rfl
    · rw [h4]
      rfl
  · intro fb top x y bytes w st htop hw hleadx hcontx
    obtain ⟨c1, hc1, -⟩ := (Fb.widthAt_eq_some_iff fb (x + 1) y 0).mp hcontx
    have hput : putGraphemeIn fb top x y bytes w st =
        pgWriteCont
          ((pgRepairCont (pgNormalizeLead fb x y) x y).setCell x y ⟨bytes, w, st⟩)
          top x y w st := by
      unfold putGraphemeIn
      rw [if_neg (by simp [htop])]
    have hpx : (pgNormalizeLead fb x y).cellAt x y = fb.cellAt x y :=
      cellAt_pgNormalizeLead_ne fb (Or.inl (by omega))
    have hpx1 : (pgNormalizeLead fb x y).cellAt (x + 1) y = fb.cellAt (x + 1) y :=
      cellAt_pgNormalizeLead_ne fb (Or.inl (by omega))
    have hcond : (pgNormalizeLead fb x y).widthAt x y = some 2 ∧
        (pgNormalizeLead fb x y).widthAt (x + 1) y = some 0 := by
      constructor
      · rw [widthAt_congr_of_cellAt hpx]
        exact hleadx
      · rw [widthAt_congr_of_cellAt hpx1]
        exact hcontx
    have h2 : (pgRepairCont (pgNormalizeLead fb x y) x y).cellAt (x + 1) y =
        some (blankCell c1.style) := by
      unfold pgRepairCont
      rw [if_pos hcond]
      apply Fb.cellAt_blankOut_self
      rw [hpx1]
      exact hc1
    have h3 : ((pgRepairCont (pgNormalizeLead fb x y) x y).setCell x y
        ⟨bytes, w, st⟩).cellAt (x + 1) y = some (blankCell c1.style) := by
      rw [Fb.cellAt_setCell_ne _ _ (Or.inl (by omega))]
      exact h2
    have h4 : (putGraphemeIn fb top x y bytes w st).cellAt (x + 1) y =
        some (blankCell c1.style) := by
      rw [hput]
      unfold pgWriteCont
      rw [if_neg hw]
      exact h3
    constructor
    · unfold Fb.widthAt
      rw [h4]
      rfl
    · rw [h4]
      rfl

/-- Witness for C1: on a concrete 2×1 framebuffer holding a wide pair, a
width-1 write over the continuation cell blanks the lead. -/
theorem C1_clip_painter_pair_repair_witness :
    (putGraphemeIn pairFb pairTop 1 0 [65] 1 plainStyle).widthAt 0 0 = some 1 ∧
    ((putGraphemeIn pairFb pairTop 1 0 [65] 1 plainStyle).cellAt 0 0).map Cell.glyph =
      some [32] := by
  have h := C1_clip_painter_pair_repair.1 pairFb pairTop 1 0 [65] 1 plainStyle
    (by decide) (by decide)
  simpa using h

/-- C6: every style transition touching the intensity class or a color is
emitted as a full reset-and-rebuild SGR parameter list (reset code `0`
followed by the complete target codes), never as an incremental single
attribute toggle; entering dim emits reset+dim, dim→normal emits a
reset+normal rebuild carrying no intensity marker, dim→bold and bold→dim
each emit only the opposite intensity marker and never both, and the emitted
byte streams contain the reset-led sequences the native tests look for. -/
theorem C6_style_reset_rebuild :
    (∀ a b : Style,
        intensityOf a.attrs ≠ intensityOf b.attrs ∨ a.fg ≠ b.fg ∨ a.bg ≠ b.bg →
        sgrTransition a b = sgrRebuild b) ∧
    (∀ a b : Style,
        sgrTransition a b = [] ∨
        sgrTransition a b = 0 :: (intensityCodes b ++ underlineCodes b ++ colorCodes b)) ∧
    (∀ a b : Style,
        intensityOf a.attrs ≠ Intensity.dim → intensityOf b.attrs = Intensity.dim →
        sgrTransition a b = 0 :: 2 :: (underlineCodes b ++ colorCodes b)) ∧
    (∀ a b : Style,
        intensityOf a.attrs = Intensity.dim → intensityOf b.attrs = Intensity.normal →
        intensityCodes b = [] ∧
        sgrTransition a b = 0 :: (underlineCodes b ++ colorCodes b)) ∧
    (∀ a b : Style,
        intensityOf a.attrs = Intensity.dim → intensityOf b.attrs = Intensity.bold →
        intensityCodes b = [1] ∧
        sgrTransition a b = 0 :: 1 :: (underlineCodes b ++ colorCodes b)) ∧
    (∀ a b : Style,
        intensityOf a.attrs = Intensity.bold → intensityOf b.attrs = Intensity.dim →
        intensityCodes b = [2] ∧
        sgrTransition a b = 0 :: 2 :: (underlineCodes b ++ colorCodes b)) ∧
    (∀ b : Style, ¬(1 ∈ intensityCodes b ∧ 2 ∈ intensityCodes b)) ∧
    (isSub (strBytes "\x1b[0;2;") (renderSgr (sgrTransition plainStyle ⟨0, 0, 16⟩)) = true ∧
     isSub (strBytes "\x1b[0;38;") (renderSgr (sgrTransition ⟨0, 0, 16⟩ plainStyle)) = true ∧
     isSub (strBytes "\x1b[0;1;") (renderSgr (sgrTransition ⟨0, 0, 16⟩ ⟨0, 0, 1⟩)) = true ∧
     isSub (strBytes "\x1b[0;2;") (renderSgr (sgrTransition ⟨0, 0, 1⟩ ⟨0, 0, 16⟩)) = true) := by
  have hne : ∀ a b : Style,
      intensityOf a.attrs ≠ intensityOf b.attrs ∨ a.fg ≠ b.fg ∨ a.bg ≠ b.bg → a ≠ b := by
    intro a b h heq
    subst heq
    rcases h with h | h | h <;> exact h rfl
  have hfull : ∀ a b : Style,
      intensityOf a.attrs ≠ intensityOf b.attrs ∨ a.fg ≠ b.fg ∨ a.bg ≠ b.bg →
      sgrTransition a b = sgrRebuild b := by
    intro a b h
    unfold sgrTransition
    rw [if_neg (hne a b h)]
  refine ⟨hfull, ?_, ?_, ?_, ?_, ?_, ?_, by decide⟩
  · intro a b
    by_cases h : a = b
    · left
      unfold sgrTransition
      rw [if_pos h]
    · right
      unfold sgrTransition
      rw [if_neg h]
      rfl
  · intro a b ha hb
    have h := hfull a b (Or.inl (by rw [hb]; exact ha))
    rw [h]
    unfold sgrRebuild intensityCodes
    rw [hb]
    rfl
  · intro a b ha hb
    have hic : intensityCodes b = [] := by
      unfold intensityCodes
      rw [hb]
    have h := hfull a b (Or.inl (by rw [ha, hb]; simp))
    rw [h]
    refine ⟨hic, ?_⟩
    unfold sgrRebuild
    rw [hic]
    rfl
  · intro a b ha hb
    have hic : intensityCodes b = [1] := by
      unfold intensityCodes
      rw [hb]
    have h := hfull a b (Or.inl (by rw [ha, hb]; simp))
    rw [h]
    refine ⟨hic, ?_⟩
    unfold sgrRebuild
    rw [hic]
    rfl
  · intro a b ha hb
    have hic : intensityCodes b = [2] := by
      unfold intensityCodes
      rw [hb]
    have h := hfull a b (Or.inl (by rw [ha, hb]; simp))
    rw [h]
    refine ⟨hic, ?_⟩
    unfold sgrRebuild
    rw [hic]
    rfl
  · intro b h
    unfold intensityCodes at h
    rcases hi : intensityOf b.attrs <;> rw [hi] at h <;> simp at h

/-- Witness for C6: the transition from the plain style into dim is the
reset-and-rebuild list starting `0 ; 2`. -/
theorem C6_style_reset_rebuild_witness :
    sgrTransition plainStyle ⟨0, 0, 16⟩ =
      0 :: 2 :: (underlineCodes ⟨0, 0, 16⟩ ++ colorCodes ⟨0, 0, 16⟩) :=
  (C6_style_reset_rebuild.2.2.1 plainStyle ⟨0, 0, 16⟩ (by decide) (by decide))

/-- C7: after the diff renderer emits a non-ASCII (multi-byte) glyph the
tracked cursor becomes untrusted, and any emission from an untrusted cursor
opens with an explicit absolute cursor-position sequence, so the cell
emitted right after a non-ASCII one is always preceded by a CUP; in
particular, on the 2×1 scenario grid the output stream contains the CUP
`ESC [1;2H` (column 2, row 1) before the `"A"` byte. -/
theorem C7_cursor_reanchor_after_non_ascii :
    (∀ (es : EmitState) (x y : Nat) (c : Cell),
        c.isAscii = false → ((emitCell es x y c).1).cursorKnown = false) ∧
    (∀ (es : EmitState) (x y : Nat) (c : Cell),
        es.cursorKnown = false →
        ∃ rest, (emitCell es x y c).2 = cupSeq x y ++ rest) ∧
    (∀ (es : EmitState) (y x : Nat) (c1 c2 : Cell) (cs : List Cell),
        c1.isAscii = false →
        ∃ rest, (emitRun es y x (c1 :: c2 :: cs)).2 =
          (emitCell es x y c1).2 ++ (cupSeq (x + 1) y ++ rest)) ∧
    seqThenByte (diffRender diffPrev diffNext 64 esInit).2.2
      (strBytes "\x1b[1;2H") 65 = true := by
  have hknown : ∀ (es : EmitState) (x y : Nat) (c : Cell),
      c.isAscii = false → ((emitCell es x y c).1).cursorKnown = false := by
    intro es x y c h
    simp [emitCell, h]
  have hcup : ∀ (es : EmitState) (x y : Nat) (c : Cell),
      es.cursorKnown = false →
      ∃ rest, (emitCell es x y c).2 = cupSeq x y ++ rest := by
    intro es x y c h
    refine ⟨(if es.activeStyle = c.style then []
             else renderSgr (sgrTransition es.activeStyle c.style)) ++ c.glyph, ?_⟩
    simp [emitCell, h]
  refine ⟨hknown, hcup, ?_, by decide⟩
  intro es y x c1 c2 cs h1
  obtain ⟨r, hr⟩ := hcup (emitCell es x y c1).1 (x + 1) y c2 (hknown es x y c1 h1)
  refine ⟨r ++ (emitRun (emitCell (emitCell es x y c1).1 (x + 1) y c2).1 y
    (x + 1 + 1) cs).2, ?_⟩
  show (emitRun es y x (c1 :: c2 :: cs)).2 = _
  simp only [emitRun, hr]
  rw [List.append_assoc]

/-- Witness for C7: emitting the concrete non-ASCII block glyph from the
initial state leaves the cursor untrusted. -/
theorem C7_cursor_reanchor_after_non_ascii_witness :
    ((emitCell esInit 0 0 ⟨[226, 150, 136], 1, plainStyle⟩).1).cursorKnown = false :=
  C7_cursor_reanchor_after_non_ascii.1 esInit 0 0 ⟨[226, 150, 136], 1, plainStyle⟩
    (by decide)

lemma changedCols_self (f : Fb) (y : Nat) : changedCols f f y = [] := by
  unfold changedCols
  apply List.filter_eq_nil_iff.mpr
  intro a _
  simp

lemma flatten_map_nil (α β : Type) (l : List β) :
    (l.map (fun _ => ([] : List α))).flatten = [] := by
  induction l with
  | nil => rfl
  | cons a t ih => simp [ih]

/-- C8: diffing any framebuffer against itself yields zero damage — no damage
rects, `damage_full_frame` false — and an empty output stream, in particular
one containing no cell-content bytes. -/
theorem C8_diff_idempotent (f : Fb) (cap : Nat) (es : EmitState) :
    diffRender f f cap es = ([], false, []) := by
  have hdmg : damageOf f f cap = ([], false) := by
    unfold damageOf
    rw [if_pos ⟨rfl, rfl⟩]
    simp only [changedCols_self]
    have : ((List.range f.rows).map
        (fun y => (runsOf ([] : List Nat)).map (fun r => (y, r.1, r.2)))).flatten =
        ([] : List (Nat × Nat × Nat)) := by
      simp [runsOf, flatten_map_nil (Nat × Nat × Nat) Nat (List.range f.rows)]
    rw [this]
    simp
  unfold diffRender
  rw [hdmg]
  rfl

lemma regFind_cons (kv : Nat × EngineSlot) (rest : Reg) (id : Nat) :
    regFind (kv :: rest) id = if kv.1 = id then some kv.2 else regFind rest id := rfl

lemma regAdjust_cons (kv : Nat × EngineSlot) (rest : Reg) (id : Nat)
    (f : EngineSlot → EngineSlot) :
    regAdjust (kv :: rest) id f =
      (if kv.1 = id then (kv.1, f kv.2) else kv) :: regAdjust rest id f := rfl

lemma regFind_regAdjust (reg : Reg) (id : Nat) (f : EngineSlot → EngineSlot) :
    regFind (regAdjust reg id f) id = (regFind reg id).map f := by
  induction reg with
  | nil => rfl
  | cons kv rest ih =>
    rw [regAdjust_cons, regFind_cons, regFind_cons]
    by_cases hk : kv.1 = id
    · rw [if_pos hk, if_pos hk]
      dsimp only
      rw [if_pos hk]
      rfl
    · rw [if_neg hk, if_neg hk, if_neg hk]
      exact ih

lemma regAdjust_regAdjust (reg : Reg) (id : Nat) (f g : EngineSlot → EngineSlot) :
    regAdjust (regAdjust reg id f) id g = regAdjust reg id (fun s => g (f s)) := by
  induction reg with
  | nil => rfl
  | cons kv rest ih =>
    rw [regAdjust_cons, regAdjust_cons, regAdjust_cons, ih]
    by_cases hk : kv.1 = id
    · rw [if_pos hk]
      rw [if_pos hk, if_pos hk]
    · rw [if_neg hk, if_neg hk, if_neg hk]

lemma regAdjust_inc_dec (reg : Reg) (id : Nat) :
    regAdjust reg id (fun s => { s with activeCalls := s.activeCalls + 1 - 1 }) = reg := by
  induction reg with
  | nil => rfl
  | cons kv rest ih =>
    rw [regAdjust_cons, ih]
    by_cases hk : kv.1 = id
    · rw [if_pos hk]
      rw [Nat.add_sub_cancel]
    · rw [if_neg hk]

lemma guardDrop_after_guard (reg : Reg) (id : Nat) {slot : EngineSlot}
    (hfind : regFind reg id = some slot) :
    guardDrop (regAdjust reg id (fun s => { s with activeCalls := s.activeCalls + 1 })) id =
      (reg, dropEvents id slot) := by
  unfold guardDrop
  rw [regFind_regAdjust, hfind, regAdjust_regAdjust]
  have hfst : regAdjust reg id
      (fun s => { ({ s with activeCalls := s.activeCalls + 1 } : EngineSlot) with
        activeCalls := ({ s with activeCalls := s.activeCalls + 1 } : EngineSlot).activeCalls - 1 }) = reg :=
    regAdjust_inc_dec reg id
  rw [hfst]
  unfold dropEvents
  by_cases h0 : slot.activeCalls = 0
  · simp [h0]
  · have : ¬(slot.activeCalls + 1 = 1) := by omega
    simp [h0, this]

lemma runGuarded_fail {α : Type} (reg : Reg) (id : Nat) (onErr : α)
    (body : EngineSlot → α × Bool)
    (h : id = 0 ∨ regFind reg id = none) :
    runGuarded reg id onErr body = ⟨onErr, reg, [], false⟩ := by
  unfold runGuarded getEngineGuard
  rcases h with h | h
  · rw [if_pos h]
  · by_cases h0 : id = 0
    · rw [if_pos h0]
    · rw [if_neg h0, h]

lemma runGuarded_ok {α : Type} (reg : Reg) (id : Nat) (onErr : α)
    (body : EngineSlot → α × Bool) {slot : EngineSlot}
    (hid : id ≠ 0) (hfind : regFind reg id = some slot) :
    runGuarded reg id onErr body =
      ⟨(body slot).1, reg, CEvent.incr id :: dropEvents id slot, (body slot).2⟩ := by
  unfold runGuarded getEngineGuard
  rw [if_neg hid, hfind]
  dsimp only
  rw [guardDrop_after_guard reg id hfind]
  rfl

/-- C3: every state-mutating engine wrapper — submit, present, poll, set
config, get metrics, get caps, and all seven debug operations — invoked for a
registered handle from a thread other than the owner fails with
`InvalidArgument`, never reaches the native engine call, and leaves the
registry exactly as it was; the designated cross-thread wake-up,
`enginePostUserEvent`, performs no owner-thread check and reaches the native
call even from a foreign thread. -/
theorem C3_owner_thread_affinity
    (reg : Reg) (id caller : Nat) (slot : EngineSlot)
    (len outLen payloadLen headersCap outSize : Nat) (timeoutMs ffiRc : Int)
    (applyVals : JFields → Except CfgError Unit) (cfg query : Option JFields)
    (recordIdOk misaligned : Bool)
    (hid : id ≠ 0) (hfind : regFind reg id = some slot)
    (hth : slot.ownerThread ≠ caller) :
    engineSubmitDrawlist reg id caller len ffiRc =
      ⟨ZR_ERR_INVALID_ARGUMENT, reg, CEvent.incr id :: dropEvents id slot, false⟩ ∧
    enginePresent reg id caller ffiRc =
      ⟨ZR_ERR_INVALID_ARGUMENT, reg, CEvent.incr id :: dropEvents id slot, false⟩ ∧
    enginePollEvents reg id caller timeoutMs outLen ffiRc =
      ⟨ZR_ERR_INVALID_ARGUMENT, reg, CEvent.incr id :: dropEvents id slot, false⟩ ∧
    engineSetConfig reg id caller applyVals cfg ffiRc =
      ⟨Except.ok ZR_ERR_INVALID_ARGUMENT, reg, CEvent.incr id :: dropEvents id slot, false⟩ ∧
    engineGetMetrics reg id caller ffiRc =
      ⟨Except.error NapiErr.invalidArg, reg, CEvent.incr id :: dropEvents id slot, false⟩ ∧
    engineGetCaps reg id caller ffiRc =
      ⟨Except.error NapiErr.invalidArg, reg, CEvent.incr id :: dropEvents id slot, false⟩ ∧
    engineDebugEnable reg id caller applyVals cfg ffiRc =
      ⟨Except.ok ZR_ERR_INVALID_ARGUMENT, reg, CEvent.incr id :: dropEvents id slot, false⟩ ∧
    engineDebugDisable reg id caller =
      ⟨ZR_ERR_INVALID_ARGUMENT, reg, CEvent.incr id :: dropEvents id slot, false⟩ ∧
    engineDebugQuery reg id caller applyVals query headersCap misaligned ffiRc =
      ⟨Except.error NapiErr.invalidArg, reg, CEvent.incr id :: dropEvents id slot, false⟩ ∧
    engineDebugGetPayload reg id caller recordIdOk ffiRc outSize =
      ⟨Except.error NapiErr.invalidArg, reg, CEvent.incr id :: dropEvents id slot, false⟩ ∧
    engineDebugGetStats reg id caller ffiRc =
      ⟨Except.error NapiErr.invalidArg, reg, CEvent.incr id :: dropEvents id slot, false⟩ ∧
    engineDebugExport reg id caller ffiRc =
      ⟨ZR_ERR_INVALID_ARGUMENT, reg, CEvent.incr id :: dropEvents id slot, false⟩ ∧
    engineDebugReset reg id caller =
      ⟨ZR_ERR_INVALID_ARGUMENT, reg, CEvent.incr id :: dropEvents id slot, false⟩ ∧
    (payloadLen ≤ I32_MAX →
      enginePostUserEvent reg id payloadLen ffiRc =
        ⟨ffiRc, reg, CEvent.incr id :: dropEvents id slot, true⟩) := by
  refine ⟨?_, ?_, ?_, ?_, ?_, ?_, ?_, ?_, ?_, ?_, ?_, ?_, ?_, ?_⟩
  · unfold engineSubmitDrawlist
    rw [runGuarded_ok reg id _ _ hid hfind]
    simp [hth]
  · unfold enginePresent
    rw [runGuarded_ok reg id _ _ hid hfind]
    simp [hth]
  · unfold enginePollEvents
    rw [runGuarded_ok reg id _ _ hid hfind]
    simp [hth]
  · unfold engineSetConfig
    rw [runGuarded_ok reg id _ _ hid hfind]
    simp [hth]
  · unfold engineGetMetrics
    rw [runGuarded_ok reg id _ _ hid hfind]
    simp [hth]
  · unfold engineGetCaps
    rw [runGuarded_ok reg id _ _ hid hfind]
    simp [hth]
  · unfold engineDebugEnable
    rw [runGuarded_ok reg id _ _ hid hfind]
    simp [hth]
  · unfold engineDebugDisable
    rw [runGuarded_ok reg id _ _ hid hfind]
    simp [hth]
  · unfold engineDebugQuery
    rw [runGuarded_ok reg id _ _ hid hfind]
    simp [hth]
  · unfold engineDebugGetPayload
    rw [runGuarded_ok reg id _ _ hid hfind]
    simp [hth]
  · unfold engineDebugGetStats
    rw [runGuarded_ok reg id _ _ hid hfind]
    simp [hth]
  · unfold engineDebugExport
    rw [runGuarded_ok reg id _ _ hid hfind]
    simp [hth]
  · unfold engineDebugReset
    rw [runGuarded_ok reg id _ _ hid hfind]
    simp [hth]
  · intro hlen
    unfold enginePostUserEvent
    rw [runGuarded_ok reg id _ _ hid hfind]
    simp [show ¬(I32_MAX < payloadLen) from by omega]

/-- Witness for C3: on the one-handle registry, a present call from thread 2
against the handle owned by thread 1 fails `InvalidArgument` without touching
the native engine, and the post-user-event call goes through. -/
theorem C3_owner_thread_affinity_witness :
    enginePresent regOne 3 2 9 =
      ⟨ZR_ERR_INVALID_ARGUMENT, regOne, [CEvent.incr 3, CEvent.decr 3, CEvent.wake 3], false⟩ ∧
    enginePostUserEvent regOne 3 0 9 =
      ⟨9, regOne, [CEvent.incr 3, CEvent.decr 3, CEvent.wake 3], true⟩ := by
  have h := C3_owner_thread_affinity regOne 3 2 ⟨1, 0, false⟩ 0 0 0 0 0 0 9
    (fun _ => Except.ok ()) none none true false
    (by decide) (by decide) (by decide)
  exact ⟨h.2.1, h.2.2.2.2.2.2.2.2.2.2.2.2.2 (by decide)⟩

lemma runGuarded_balance {α : Type} (reg : Reg) (id : Nat) (onErr : α)
    (body : EngineSlot → α × Bool) :
    CallBalanced reg id (runGuarded reg id onErr body) := by
  by_cases hid : id = 0
  · rw [runGuarded_fail reg id onErr body (Or.inl hid)]
    refine ⟨rfl, rfl, ?_⟩
    intro slot h
    exact absurd hid h
  · cases hfind : regFind reg id with
    | none =>
      rw [runGuarded_fail reg id onErr body (Or.inr hfind)]
      refine ⟨rfl, rfl, ?_⟩
      intro slot _ hf
      rw [hfind] at hf
      cases hf
    | some slot =>
      rw [runGuarded_ok reg id onErr body hid hfind]
      unfold CallBalanced dropEvents
      by_cases h0 : slot.activeCalls = 0
      · rw [if_pos h0]
        refine ⟨rfl, by simp [List.count_cons], ?_⟩
        intro slot2 _ hf
        exact ⟨by simp [List.count_cons], by simp [List.count_cons], fun _ => by simp⟩
      · rw [if_neg h0]
        refine ⟨rfl, by simp [List.count_cons], ?_⟩
        intro slot2 _ hf
        rw [hfind] at hf
        injection hf with hf2
        refine ⟨by simp [List.count_cons], by simp [List.count_cons], ?_⟩
        intro h02
        rw [hf2] at h0
        exact absurd h02 h0

/-- C4: every public engine wrapper call satisfies the call-accounting
contract — on a successful handle lookup the active-call counter is
incremented exactly once on entry and decremented exactly once on every exit
path (error paths included), with the wake notification when it returns to
zero, and the registry's counters are restored by the time the call
returns. -/
theorem C4_call_counter_balance
    (reg : Reg) (id caller : Nat)
    (len outLen payloadLen headersCap outSize : Nat) (timeoutMs ffiRc : Int)
    (applyVals : JFields → Except CfgError Unit) (cfg query : Option JFields)
    (recordIdOk misaligned : Bool) :
    CallBalanced reg id (engineSubmitDrawlist reg id caller len ffiRc) ∧
    CallBalanced reg id (enginePresent reg id caller ffiRc) ∧
    CallBalanced reg id (enginePollEvents reg id caller timeoutMs outLen ffiRc) ∧
    CallBalanced reg id (enginePostUserEvent reg id payloadLen ffiRc) ∧
    CallBalanced reg id (engineSetConfig reg id caller applyVals cfg ffiRc) ∧
    CallBalanced reg id (engineGetMetrics reg id caller ffiRc) ∧
    CallBalanced reg id (engineGetCaps reg id caller ffiRc) ∧
    CallBalanced reg id (engineDebugEnable reg id caller applyVals cfg ffiRc) ∧
    CallBalanced reg id (engineDebugDisable reg id caller) ∧
    CallBalanced reg id (engineDebugQuery reg id caller applyVals query headersCap misaligned ffiRc) ∧
    CallBalanced reg id (engineDebugGetPayload reg id caller recordIdOk ffiRc outSize) ∧
    CallBalanced reg id (engineDebugGetStats reg id caller ffiRc) ∧
    CallBalanced reg id (engineDebugExport reg id caller ffiRc) ∧
    CallBalanced reg id (engineDebugReset reg id caller) :=
  ⟨runGuarded_balance _ _ _ _, runGuarded_balance _ _ _ _, runGuarded_balance _ _ _ _,
   runGuarded_balance _ _ _ _, runGuarded_balance _ _ _ _, runGuarded_balance _ _ _ _,
   runGuarded_balance _ _ _ _, runGuarded_balance _ _ _ _, runGuarded_balance _ _ _ _,
   runGuarded_balance _ _ _ _, runGuarded_balance _ _ _ _, runGuarded_balance _ _ _ _,
   runGuarded_balance _ _ _ _, runGuarded_balance _ _ _ _⟩

/-- Witness for C4: an owner-thread present call on the one-handle registry
increments once, decrements once, wakes the (empty) waiter set as the counter
returns to zero, and hands the registry back unchanged. -/
theorem C4_call_counter_balance_witness :
    (enginePresent regOne 3 1 5).events.count (CEvent.incr 3) = 1 ∧
    (enginePresent regOne 3 1 5).events.count (CEvent.decr 3) = 1 ∧
    CEvent.wake 3 ∈ (enginePresent regOne 3 1 5).events ∧
    (enginePresent regOne 3 1 5).reg = regOne := by
  have h := (C4_call_counter_balance regOne 3 1 0 0 0 0 0 0 5
    (fun _ => Except.ok ()) none none true false).2.1
  obtain ⟨hreg, hbal, hsucc⟩ := h
  obtain ⟨h1, h2, h3⟩ := hsucc ⟨1, 0, false⟩ (by decide) (by decide)
  exact ⟨h1, h2, h3 (by decide), hreg⟩

lemma regFind_regRemove (reg : Reg) (id : Nat) :
    regFind (regRemove reg id) id = none := by
  induction reg with
  | nil => rfl
  | cons kv rest ih =>
    unfold regRemove at ih ⊢
    by_cases hk : kv.1 = id
    · simp only [List.filter_cons]
      rw [show (kv.1 != id) = false by simp [hk]]
      rw [if_neg (by decide)]
      exact ih
    · simp only [List.filter_cons]
      rw [show (kv.1 != id) = true by simp [hk]]
      rw [if_pos rfl, regFind_cons, if_neg hk]
      exact ih

lemma dstep_inv {s u : DState} (hs : DStep s u)
    (h1 : s.destroyedFlag = true → s.registered = false)
    (h2 : s.freed = true → s.destroyedFlag = true ∧ s.activeCalls = 0) :
    (u.destroyedFlag = true → u.registered = false) ∧
    (u.freed = true → u.destroyedFlag = true ∧ u.activeCalls = 0) := by
  cases hs with
  | beginCall h =>
    constructor
    · intro hd
      have hreg := h1 hd
      rw [h] at hreg
      cases hreg
    · intro hf
      obtain ⟨hd, -⟩ := h2 hf
      have hreg := h1 hd
      rw [h] at hreg
      cases hreg
  | endCall n h =>
    constructor
    · exact h1
    · intro hf
      obtain ⟨-, h0⟩ := h2 hf
      rw [h0] at h
      exact absurd h (by omega)
  | destroyRemove h =>
    constructor
    · intro hdu
      rfl
    · intro hf
      obtain ⟨-, h0⟩ := h2 hf
      exact ⟨rfl, h0⟩
  | destroyFree hd h0 =>
    constructor
    · intro hdu
      exact h1 hd
    · intro hfu
      exact ⟨hd, h0⟩

lemma dreach_inv {n : Nat} {s : DState} (h : DReach (DInit n) s) :
    (s.destroyedFlag = true → s.registered = false) ∧
    (s.freed = true → s.destroyedFlag = true ∧ s.activeCalls = 0) := by
  induction h with
  | refl =>
    constructor
    · intro hd
      cases hd
    · intro hf
      cases hf
  | step hr hs ih =>
    exact dstep_inv hs ih.1 ih.2

/-- C2: `engineDestroy` on the owner thread removes the registered handle from
the registry, after which any lookup of the id fails `InvalidArgument`
without touching anything; the drain-and-free protocol frees only once the
active-call counter is zero, and once the free has happened (destroy
returned) no call on the handle is in flight and no further step of the
protocol can change the state, so no later call can be observed in flight or
succeed. -/
theorem C2_destroy_drain_protocol :
    (∀ (reg : Reg) (id caller : Nat) (slot : EngineSlot) (ffiRc : Int),
        id ≠ 0 → regFind reg id = some slot → slot.ownerThread = caller →
        engineDestroyRemove reg id caller = (regRemove reg id, true) ∧
        regFind (regRemove reg id) id = none ∧
        enginePresent (regRemove reg id) id caller ffiRc =
          ⟨ZR_ERR_INVALID_ARGUMENT, regRemove reg id, [], false⟩) ∧
    (∀ (s u : DState), DStep s u → u.freed = true →
        s.freed = true ∨ s.activeCalls = 0) ∧
    (∀ (n : Nat) (s : DState), DReach (DInit n) s → s.freed = true →
        s.activeCalls = 0 ∧ s.registered = false) ∧
    (∀ (n : Nat) (s u : DState), DReach (DInit n) s → s.freed = true →
        DStep s u → u = s) := by
  have hfreed : ∀ (n : Nat) (s : DState), DReach (DInit n) s → s.freed = true →
      s.activeCalls = 0 ∧ s.registered = false := by
    intro n s hr hf
    obtain ⟨h1, h2⟩ := dreach_inv hr
    obtain ⟨hd, h0⟩ := h2 hf
    exact ⟨h0, h1 hd⟩
  refine ⟨?_, ?_, hfreed, ?_⟩
  · intro reg id caller slot ffiRc hid hfind howner
    refine ⟨?_, regFind_regRemove reg id, ?_⟩
    · unfold engineDestroyRemove
      rw [if_neg hid, hfind]
      dsimp only
      rw [if_neg (fun hne => hne howner)]
    · unfold enginePresent
      rw [runGuarded_fail _ _ _ _ (Or.inr (regFind_regRemove reg id))]
  · intro s u hs hf
    cases hs with
    | beginCall h =>
      left
      exact hf
    | endCall n h =>
      left
      exact hf
    | destroyRemove h =>
      left
      exact hf
    | destroyFree hd h0 =>
      right
      exact h0
  · intro n s u hr hf hs
    obtain ⟨h0, hreg⟩ := hfreed n s hr hf
    cases hs with
    | beginCall h =>
      rw [h] at hreg
      cases hreg
    | endCall m h =>
      rw [h0] at h
      exact absurd h (by omega)
    | destroyRemove h =>
      rw [h] at hreg
      cases hreg
    | destroyFree hd hz =>
      obtain ⟨r, a, d, f⟩ := s
      have hf2 : f = true := hf
      rw [hf2]

/-- Witness for C2: removing handle 3 from the one-handle registry on its
owner thread leaves the id unresolvable, and running the drain protocol from
an idle handle to the freed state reaches it with a zero counter and the
handle deregistered. -/
theorem C2_destroy_drain_protocol_witness :
    (engineDestroyRemove regOne 3 1 = (regRemove regOne 3, true) ∧
     regFind (regRemove regOne 3) 3 = none ∧
     enginePresent (regRemove regOne 3) 3 1 7 =
       ⟨ZR_ERR_INVALID_ARGUMENT, regRemove regOne 3, [], false⟩) ∧
    ((⟨false, 0, true, true⟩ : DState).activeCalls = 0 ∧
     (⟨false, 0, true, true⟩ : DState).registered = false) := by
  have hseq := C2_destroy_drain_protocol.1 regOne 3 1 ⟨1, 0, false⟩ 7
    (by decide) (by decide) (by decide)
  have hreach : DReach (DInit 0) ⟨false, 0, true, true⟩ :=
    DReach.step (DReach.step (DReach.refl _) (DStep.destroyRemove _ rfl))
      (DStep.destroyFree _ rfl rfl)
  exact ⟨hseq, C2_destroy_drain_protocol.2.2.1 0 _ hreach rfl⟩

/-- C5: id allocation never hands out 0 — a zero counter means the space is
exhausted and every allocation (and hence `engineCreate`) fails
`ZR_ERR_LIMIT` leaving the counter parked at 0, so ids never wrap into live
handles; successful ids from consecutive allocations are strictly
increasing; and `engineCreate` never returns 0 to the caller on any path. -/
theorem C5_engine_id_allocation :
    (∀ (c id c2 : Nat), allocEngineId c = (Except.ok id, c2) → id ≠ 0) ∧
    (∀ (c id1 c1 id2 c2 : Nat),
        allocEngineId c = (Except.ok id1, c1) →
        allocEngineId c1 = (Except.ok id2, c2) → id1 < id2) ∧
    allocEngineId 0 = (Except.error ZR_ERR_LIMIT, 0) ∧
    (∀ (c c2 : Nat) (e : Int), allocEngineId c = (Except.error e, c2) →
        e = ZR_ERR_LIMIT ∧ c2 = 0) ∧
    (∀ (applyVals : JFields → Except CfgError Unit) (cfg : Option JFields)
        (ffiRc : Int) (ffiNull : Bool) (c : Nat) (reg : Reg) (caller : Nat),
        (engineCreateOp applyVals cfg ffiRc ffiNull c reg caller).result ≠
          Except.ok (0 : Int)) ∧
    (∀ (applyVals : JFields → Except CfgError Unit) (reg : Reg) (caller : Nat),
        engineCreateOp applyVals none ZR_OK false 0 reg caller =
          ⟨Except.ok ZR_ERR_LIMIT, 0, reg, true, true⟩) := by
  have hok : ∀ (c id c2 : Nat), allocEngineId c = (Except.ok id, c2) →
      id = c ∧ c ≠ 0 := by
    intro c id c2 h
    unfold allocEngineId at h
    split_ifs at h with h0 hm
    · simp at h
    · simp at h
      exact ⟨h.1.symm, h0⟩
    · simp at h
      exact ⟨h.1.symm, h0⟩
  have herr : ∀ (c c2 : Nat) (e : Int), allocEngineId c = (Except.error e, c2) →
      e = ZR_ERR_LIMIT ∧ c2 = 0 ∧ c = 0 := by
    intro c c2 e h
    unfold allocEngineId at h
    split_ifs at h with h0 hm
    · simp at h
      exact ⟨h.1.symm, h.2.symm, h0⟩
    · simp at h
    · simp at h
  have hsucc : ∀ (c id c2 : Nat), allocEngineId c = (Except.ok id, c2) →
      id = c ∧ (c2 = 0 ∨ c2 = c + 1) := by
    intro c id c2 h
    unfold allocEngineId at h
    split_ifs at h with h0 hm
    · simp at h
    · simp at h
      exact ⟨h.1.symm, Or.inl h.2.symm⟩
    · simp at h
      exact ⟨h.1.symm, Or.inr h.2.symm⟩
  refine ⟨?_, ?_, by rfl, fun c c2 e h => ⟨(herr c c2 e h).1, (herr c c2 e h).2.1⟩, ?_, ?_⟩
  · intro c id c2 h
    obtain ⟨hid, h0⟩ := hok c id c2 h
    omega
  · intro c id1 c1 id2 c2 h1 h2
    obtain ⟨hid1, hc1⟩ := hsucc c id1 c1 h1
    obtain ⟨hid2, h02⟩ := hok c1 id2 c2 h2
    rcases hc1 with hc1 | hc1
    · rw [hc1] at h02
      exact absurd rfl h02
    · omega
  · intro applyVals cfg ffiRc ffiNull c reg caller
    unfold engineCreateOp
    cases hp : (match cfg with
      | none => Except.ok ()
      | some fields => applyCreateCfgStrict applyVals fields) with
    | error e => simp
    | ok u =>
      dsimp only
      by_cases hrc : ffiRc ≠ ZR_OK
      · rw [if_pos hrc]
        intro heq
        injection heq with heq2
        exact hrc (by rw [heq2]; rfl)
      · rw [if_neg hrc]
        by_cases hnull : ffiNull = true
        · rw [if_pos hnull]
          intro heq
          injection heq with heq2
          exact absurd heq2 (by decide)
        · rw [if_neg hnull]
          cases halloc : allocEngineId c with
          | mk res c2 =>
            cases res with
            | error e =>
              dsimp only
              intro heq
              injection heq with heq2
              have he := (herr c c2 e halloc).1
              rw [he] at heq2
              exact absurd heq2 (by decide)
            | ok id =>
              dsimp only
              intro heq
              injection heq with heq2
              have hid := (hok c id c2 halloc).1
              have h0 := (hok c id c2 halloc).2
              have : id = 0 := by exact_mod_cast heq2
              omega
  · intro applyVals reg caller
    unfold engineCreateOp
    dsimp only
    rw [if_neg (fun h => h rfl), if_neg (by decide)]
    rfl

/-- Witness for C5: the first two allocations hand out ids 1 then 2 — both
nonzero and strictly increasing. -/
theorem C5_engine_id_allocation_witness :
    (1 : Nat) ≠ 0 ∧ (1 : Nat) < 2 :=
  ⟨C5_engine_id_allocation.1 1 1 2 rfl,
   C5_engine_id_allocation.2.1 1 1 2 2 3 rfl rfl⟩

lemma validate_err_of_unknown (fields : JFields) (allowed : List (String × String))
    (ctx : String)
    (h : fields.any (fun kv => !isKnownKey allowed kv.1) = true) :
    ∃ k, validateKnownKeys fields allowed ctx =
        Except.error (CfgError.unknownKey ctx k) ∧
      isKnownKey allowed k = false ∧ k ∈ fields.map Prod.fst := by
  induction fields with
  | nil => cases h
  | cons kv rest ih =>
    by_cases hk : isKnownKey allowed kv.1 = true
    · have hrest : rest.any (fun kv => !isKnownKey allowed kv.1) = true := by
        simpa [hk] using h
      obtain ⟨k, h1, h2, h3⟩ := ih hrest
      refine ⟨k, ?_, h2, by simp [h3]⟩
      unfold validateKnownKeys
      rw [if_pos hk]
      exact h1
    · refine ⟨kv.1, ?_, by simpa using hk, by simp⟩
      unfold validateKnownKeys
      rw [if_neg hk]

/-- C9: `engineCreate` and `engineSetConfig` validate configuration objects
exhaustively — an unknown property name at the top level, in the nested
`limits` object, or in the nested `plat` object is rejected with an
`InvalidArg` error naming an unknown key of that object, and no part of the
configuration reaches the engine through the FFI. -/
theorem C9_config_rejects_unknown_keys :
    (∀ (applyVals : JFields → Except CfgError Unit) (fields : JFields)
        (ffiRc : Int) (ffiNull : Bool) (c : Nat) (reg : Reg) (caller : Nat),
        fields.any (fun kv => !isKnownKey CREATE_CFG_KEYS kv.1) = true →
        ∃ k, isKnownKey CREATE_CFG_KEYS k = false ∧ k ∈ fields.map Prod.fst ∧
          engineCreateOp applyVals (some fields) ffiRc ffiNull c reg caller =
            ⟨Except.error (CfgError.unknownKey "engineCreate config" k),
             c, reg, false, false⟩) ∧
    (∀ (applyVals : JFields → Except CfgError Unit) (fields lf : JFields)
        (ffiRc : Int) (ffiNull : Bool) (c : Nat) (reg : Reg) (caller : Nat),
        validateKnownKeys fields CREATE_CFG_KEYS "engineCreate config" = Except.ok () →
        jsObjField fields "limits" "limits" = Except.ok (some lf) →
        lf.any (fun kv => !isKnownKey LIMITS_KEYS kv.1) = true →
        ∃ k, isKnownKey LIMITS_KEYS k = false ∧ k ∈ lf.map Prod.fst ∧
          engineCreateOp applyVals (some fields) ffiRc ffiNull c reg caller =
            ⟨Except.error (CfgError.unknownKey "engineCreate config.limits" k),
             c, reg, false, false⟩) ∧
    (∀ (applyVals : JFields → Except CfgError Unit) (fields pf : JFields)
        (olim : Option JFields)
        (ffiRc : Int) (ffiNull : Bool) (c : Nat) (reg : Reg) (caller : Nat),
        validateKnownKeys fields CREATE_CFG_KEYS "engineCreate config" = Except.ok () →
        jsObjField fields "limits" "limits" = Except.ok olim →
        validateNested olim LIMITS_KEYS "engineCreate config.limits" = Except.ok () →
        jsObjField fields "plat" "plat" = Except.ok (some pf) →
        pf.any (fun kv => !isKnownKey PLAT_KEYS kv.1) = true →
        ∃ k, isKnownKey PLAT_KEYS k = false ∧ k ∈ pf.map Prod.fst ∧
          engineCreateOp applyVals (some fields) ffiRc ffiNull c reg caller =
            ⟨Except.error (CfgError.unknownKey "engineCreate config.plat" k),
             c, reg, false, false⟩) ∧
    (∀ (reg : Reg) (id caller : Nat) (slot : EngineSlot)
        (applyVals : JFields → Except CfgError Unit) (fields : JFields) (ffiRc : Int),
        id ≠ 0 → regFind reg id = some slot → slot.ownerThread = caller →
        fields.any (fun kv => !isKnownKey RUNTIME_CFG_KEYS kv.1) = true →
        ∃ k, isKnownKey RUNTIME_CFG_KEYS k = false ∧ k ∈ fields.map Prod.fst ∧
          engineSetConfig reg id caller applyVals (some fields) ffiRc =
            ⟨Except.error (CfgError.unknownKey "engineSetConfig config" k),
             reg, CEvent.incr id :: dropEvents id slot, false⟩) ∧
    (∀ (reg : Reg) (id caller : Nat) (slot : EngineSlot)
        (applyVals : JFields → Except CfgError Unit) (fields lf : JFields) (ffiRc : Int),
        id ≠ 0 → regFind reg id = some slot → slot.ownerThread = caller →
        validateKnownKeys fields RUNTIME_CFG_KEYS "engineSetConfig config" = Except.ok () →
        jsObjField fields "limits" "limits" = Except.ok (some lf) →
        lf.any (fun kv => !isKnownKey LIMITS_KEYS kv.1) = true →
        ∃ k, isKnownKey LIMITS_KEYS k = false ∧ k ∈ lf.map Prod.fst ∧
          engineSetConfig reg id caller applyVals (some fields) ffiRc =
            ⟨Except.error (CfgError.unknownKey "engineSetConfig config.limits" k),
             reg, CEvent.incr id :: dropEvents id slot, false⟩) ∧
    (∀ (reg : Reg) (id caller : Nat) (slot : EngineSlot)
        (applyVals : JFields → Except CfgError Unit) (fields pf : JFields)
        (olim : Option JFields) (ffiRc : Int),
        id ≠ 0 → regFind reg id = some slot → slot.ownerThread = caller →
        validateKnownKeys fields RUNTIME_CFG_KEYS "engineSetConfig config" = Except.ok () →
        jsObjField fields "limits" "limits" = Except.ok olim →
        validateNested olim LIMITS_KEYS "engineSetConfig config.limits" = Except.ok () →
        jsObjField fields "plat" "plat" = Except.ok (some pf) →
        pf.any (fun kv => !isKnownKey PLAT_KEYS kv.1) = true →
        ∃ k, isKnownKey PLAT_KEYS k = false ∧ k ∈ pf.map Prod.fst ∧
          engineSetConfig reg id caller applyVals (some fields) ffiRc =
            ⟨Except.error (CfgError.unknownKey "engineSetConfig config.plat" k),
             reg, CEvent.incr id :: dropEvents id slot, false⟩) := by
  refine ⟨?_, ?_, ?_, ?_, ?_, ?_⟩
  · intro applyVals fields ffiRc ffiNull c reg caller h
    obtain ⟨k, hv, hk, hmem⟩ :=
      validate_err_of_unknown fields CREATE_CFG_KEYS "engineCreate config" h
    refine ⟨k, hk, hmem, ?_⟩
    have hparse : applyCreateCfgStrict applyVals fields =
        Except.error (CfgError.unknownKey "engineCreate config" k) := by
      unfold applyCreateCfgStrict
      rw [hv]
    unfold engineCreateOp
    dsimp only
    rw [hparse]
  · intro applyVals fields lf ffiRc ffiNull c reg caller htv hobj h
    obtain ⟨k, hv, hk, hmem⟩ :=
      validate_err_of_unknown lf LIMITS_KEYS "engineCreate config.limits" h
    refine ⟨k, hk, hmem, ?_⟩
    have hvn : validateNested (some lf) LIMITS_KEYS "engineCreate config.limits" =
        Except.error (CfgError.unknownKey "engineCreate config.limits" k) := by
      unfold validateNested
      exact hv
    have hparse : applyCreateCfgStrict applyVals fields =
        Except.error (CfgError.unknownKey "engineCreate config.limits" k) := by
      unfold applyCreateCfgStrict
      rw [htv]
      dsimp only
      rw [hobj]
      dsimp only
      rw [hvn]
    unfold engineCreateOp
    dsimp only
    rw [hparse]
  · intro applyVals fields pf olim ffiRc ffiNull c reg caller htv hobj hlim hpobj h
    obtain ⟨k, hv, hk, hmem⟩ :=
      validate_err_of_unknown pf PLAT_KEYS "engineCreate config.plat" h
    refine ⟨k, hk, hmem, ?_⟩
    have hvp : validateNested (some pf) PLAT_KEYS "engineCreate config.plat" =
        Except.error (CfgError.unknownKey "engineCreate config.plat" k) := by
      unfold validateNested
      exact hv
    have hparse : applyCreateCfgStrict applyVals fields =
        Except.error (CfgError.unknownKey "engineCreate config.plat" k) := by
      unfold applyCreateCfgStrict
      rw [htv]
      dsimp only
      rw [hobj]
      dsimp only
      rw [hlim]
      dsimp only
      rw [hpobj]
      dsimp only
      rw [hvp]
    unfold engineCreateOp
    dsimp only
    rw [hparse]
  · intro reg id caller slot applyVals fields ffiRc hid hfind howner h
    obtain ⟨k, hv, hk, hmem⟩ :=
      validate_err_of_unknown fields RUNTIME_CFG_KEYS "engineSetConfig config" h
    refine ⟨k, hk, hmem, ?_⟩
    have hparse : applyRuntimeCfgStrict applyVals fields =
        Except.error (CfgError.unknownKey "engineSetConfig config" k) := by
      unfold applyRuntimeCfgStrict
      rw [hv]
    have hno : ¬(slot.ownerThread ≠ caller) := fun hne => hne howner
    unfold engineSetConfig
    rw [runGuarded_ok reg id _ _ hid hfind]
    dsimp only
    rw [if_neg hno, hparse]
  · intro reg id caller slot applyVals fields lf ffiRc hid hfind howner htv hobj h
    obtain ⟨k, hv, hk, hmem⟩ :=
      validate_err_of_unknown lf LIMITS_KEYS "engineSetConfig config.limits" h
    refine ⟨k, hk, hmem, ?_⟩
    have hvn : validateNested (some lf) LIMITS_KEYS "engineSetConfig config.limits" =
        Except.error (CfgError.unknownKey "engineSetConfig config.limits" k) := by
      unfold validateNested
      exact hv
    have hparse : applyRuntimeCfgStrict applyVals fields =
        Except.error (CfgError.unknownKey "engineSetConfig config.limits" k) := by
      unfold applyRuntimeCfgStrict
      rw [htv]
      dsimp only
      rw [hobj]
      dsimp only
      rw [hvn]
    have hno : ¬(slot.ownerThread ≠ caller) := fun hne => hne howner
    unfold engineSetConfig
    rw [runGuarded_ok reg id _ _ hid hfind]
    dsimp only
    rw [if_neg hno, hparse]
  · intro reg id caller slot applyVals fields pf olim ffiRc hid hfind howner htv hobj hlim hpobj h
    obtain ⟨k, hv, hk, hmem⟩ :=
      validate_err_of_unknown pf PLAT_KEYS "engineSetConfig config.plat" h
    refine ⟨k, hk, hmem, ?_⟩
    have hvp : validateNested (some pf) PLAT_KEYS "engineSetConfig config.plat" =
        Except.error (CfgError.unknownKey "engineSetConfig config.plat" k) := by
      unfold validateNested
      exact hv
    have hparse : applyRuntimeCfgStrict applyVals fields =
        Except.error (CfgError.unknownKey "engineSetConfig config.plat" k) := by
      unfold applyRuntimeCfgStrict
      rw [htv]
      dsimp only
      rw [hobj]
      dsimp only
      rw [hlim]
      dsimp only
      rw [hpobj]
      dsimp only
      rw [hvp]
    have hno : ¬(slot.ownerThread ≠ caller) := fun hne => hne howner
    unfold engineSetConfig
    rw [runGuarded_ok reg id _ _ hid hfind]
    dsimp only
    rw [if_neg hno, hparse]

/-- Witness for C9: a config whose only key is the typo `typoKey` is rejected
by `engineCreate` with an error naming that key, before any native call. -/
theorem C9_config_rejects_unknown_keys_witness :
    engineCreateOp (fun _ => Except.ok ()) (some [("typoKey", JVal.num 1)]) 0 false
        5 [] 1 =
      ⟨Except.error (CfgError.unknownKey "engineCreate config" "typoKey"),
       5, [], false, false⟩ := by
  obtain ⟨k, hk, hmem, heq⟩ := C9_config_rejects_unknown_keys.1
    (fun _ => Except.ok ()) [("typoKey", JVal.num 1)] 0 false 5 [] 1 (by decide)
  have hk2 : k = "typoKey" := by simpa using hmem
  rw [hk2] at heq
  exact heq

/-- C10: `engineDestroy` with id 0, with an unregistered id, or from a thread
other than the owner returns normally without signalling an error, leaves the
registry unchanged, and frees nothing; an existing handle stays registered
and remains fully usable from its owner thread. -/
theorem C10_destroy_benign_noops :
    (∀ (reg : Reg) (caller : Nat), engineDestroyRemove reg 0 caller = (reg, false)) ∧
    (∀ (reg : Reg) (id caller : Nat), id ≠ 0 → regFind reg id = none →
        engineDestroyRemove reg id caller = (reg, false)) ∧
    (∀ (reg : Reg) (id caller : Nat) (slot : EngineSlot) (ffiRc : Int), id ≠ 0 →
        regFind reg id = some slot → slot.ownerThread ≠ caller →
        engineDestroyRemove reg id caller = (reg, false) ∧
        regFind reg id = some slot ∧
        enginePresent reg id slot.ownerThread ffiRc =
          ⟨ffiRc, reg, CEvent.incr id :: dropEvents id slot, true⟩) := by
  refine ⟨?_, ?_, ?_⟩
  · intro reg caller
    unfold engineDestroyRemove
    rw [if_pos rfl]
  · intro reg id caller hid hfind
    unfold engineDestroyRemove
    rw [if_neg hid, hfind]
  · intro reg id caller slot ffiRc hid hfind hth
    refine ⟨?_, hfind, ?_⟩
    · have h1 : engineDestroyRemove reg id caller =
          if slot.ownerThread ≠ caller then (reg, false) else (regRemove reg id, true) := by
        unfold engineDestroyRemove
        rw [if_neg hid, hfind]
      rw [h1, if_pos hth]
    · have h2 : enginePresent reg id slot.ownerThread ffiRc =
          ⟨(if slot.ownerThread ≠ slot.ownerThread then (ZR_ERR_INVALID_ARGUMENT, false)
            else (ffiRc, true)).1, reg, CEvent.incr id :: dropEvents id slot,
           (if slot.ownerThread ≠ slot.ownerThread then (ZR_ERR_INVALID_ARGUMENT, false)
            else (ffiRc, true)).2⟩ := by
        unfold enginePresent
        rw [runGuarded_ok reg id _ _ hid hfind]
      rw [h2, if_neg (fun hne => hne rfl)]

/-- Witness for C10: destroying handle 3 of the one-handle registry from the
foreign thread 2 is a no-op, and the handle still answers a present call from
its owner thread 1. -/
theorem C10_destroy_benign_noops_witness :
    engineDestroyRemove regOne 3 2 = (regOne, false) ∧
    regFind regOne 3 = some ⟨1, 0, false⟩ ∧
    enginePresent regOne 3 1 7 =
      ⟨7, regOne, [CEvent.incr 3, CEvent.decr 3, CEvent.wake 3], true⟩ := by
  have h := C10_destroy_benign_noops.2.2 regOne 3 2 ⟨1, 0, false⟩ 7
    (by decide) (by decide) (by decide)
  exact h

end Rezi
